import Mathlib

/-!
A shallow embedding of the KVO mixin from `src/kvo.js` (key-value observing:
`bindTo`, `get`, `set`, plus the internal helpers `_isPropertyBound` and
`_updateObserverIndexes`).

Modelling conventions:

* Objects are identified by natural-number ids; the heap is a list of
  objects indexed by id.  An object is a bag of string-keyed attribute
  slots plus the set of keys for which a `<key>Changed` callback method is
  defined (callback methods are data in this model: operations emit a trace
  of callback invocations instead of running them, so re-entrant callbacks
  are out of scope).
* A slot stores either an ordinary JS value (`Slot.plain`) or a binding
  descriptor (`Slot.desc`), i.e. the object the code stores at
  `this[key]` with fields `__myIndex`, `__observerIndexes`,
  `__sharedObject`.  Shared objects (cells) live in their own heap,
  `State.cells`, and descriptors reference them by id, which models the JS
  object reference (`__sharedObject: null` is `none`).
* Ordinary JS values are modelled by `Val`.  A plain (non-descriptor)
  object value is `Val.obj id myIdx` where `id` gives reference identity
  for `===` and `myIdx` records whether the object happens to carry a
  `__myIndex` property (and its numeric value) - this is what the
  structural test in `_isPropertyBound` sniffs for.  Other fields of plain
  objects are not modelled.  Within the public API descriptors are never
  aliased between two slots, and the code never shares the arrays it
  stores in descriptors, so replacing whole descriptors on write is
  faithful to the in-place mutation of the JS original.
* JS exceptions terminate the call without rollback, so every mutating
  operation returns the state reached so far together with an optional
  error.  `JsErr.outOfFuel` is a modelling artifact of the explicit fuel
  given to the recursive `_updateObserverIndexes`; with enough fuel it
  never occurs.
-/

namespace KVO

/-- Ordinary JS values that can sit in an attribute slot.  Numbers are
modelled as integers; a plain object carries an identity and, if present,
the numeric value of its `__myIndex` property. -/
inductive Val where
  | undef : Val
  | null : Val
  | str : String → Val
  | int : Int → Val
  | bool : Bool → Val
  | obj : Nat → Option Int → Val
deriving DecidableEq, Repr

/-- JS strict equality `===` on modelled values: objects compare by
identity, values of different types are never equal. -/
def Val.jsEq : Val → Val → Bool
  | Val.undef, Val.undef => true
  | Val.null, Val.null => true
  | Val.str a, Val.str b => a == b
  | Val.int a, Val.int b => a == b
  | Val.bool a, Val.bool b => a == b
  | Val.obj a _, Val.obj b _ => a == b
  | _, _ => false

/-- One observer entry `{obj: ..., key: ...}` of a shared object's
`__observers` array. -/
structure Entry where
  obj : Nat
  key : String
deriving DecidableEq, Repr

/-- The binding descriptor the code stores at `this[key]`:
`{__myIndex, __observerIndexes, __sharedObject}`.  `sharedObject` is the
id of the referenced cell, `none` for the transient `null`. -/
structure Desc where
  myIndex : Nat
  observerIndexes : List Nat
  sharedObject : Option Nat
deriving DecidableEq, Repr

/-- An attribute slot: an ordinary value or a binding descriptor. -/
inductive Slot where
  | plain : Val → Slot
  | desc : Desc → Slot
deriving DecidableEq, Repr

/-- An object: its attribute slots (an association list on first-match
lookup, as JS property tables have unique keys the order is irrelevant)
together with the keys that have a `<key>Changed` callback defined. -/
structure Obj where
  fields : List (String × Slot)
  callbacks : List String
deriving DecidableEq, Repr

/-- A shared object (cell): `{__value, __observers}`; a `none` entry in
`observers` is a tombstoned (`null`) position. -/
structure Cell where
  value : Val
  observers : List (Option Entry)
deriving DecidableEq, Repr

/-- The whole mutable world: the object heap and the cell heap. -/
structure State where
  objs : List Obj
  cells : List Cell
deriving DecidableEq, Repr

/-- A recorded callback invocation `obj[key + 'Changed'](arg?)`. -/
structure Notif where
  obj : Nat
  key : String
  arg : Option Val
deriving DecidableEq, Repr

/-- Errors a call can raise.  `typeError` is a JS TypeError from a property
access on `undefined`/`null`; the named errors are the three `throw`
statements of kvo.js; `outOfFuel` is the fuel artifact. -/
inductive JsErr where
  | typeError : JsErr
  | undefinedTargetProperty : JsErr
  | alreadyBound : JsErr
  | undefinedSetProperty : JsErr
  | outOfFuel : JsErr
deriving DecidableEq, Repr

/-- Result of a mutating call: the state reached (JS has no rollback on
throw), the callback invocations made so far, and the error if one was
thrown. -/
structure Outcome where
  state : State
  notifs : List Notif
  err : Option JsErr
deriving DecidableEq, Repr

/-- First-match lookup in a field list (JS property read). -/
def getField : List (String × Slot) → String → Option Slot
  | [], _ => none
  | (k, v) :: rest, key => if k = key then some v else getField rest key

/-- JS property write: overwrite the binding if the key is present,
create the property otherwise. -/
def setField : List (String × Slot) → String → Slot → List (String × Slot)
  | [], key, v => [(key, v)]
  | (k, w) :: rest, key, v =>
    if k = key then (key, v) :: rest else (k, w) :: setField rest key v

/-- The object with a given id (a fresh empty object if the id is unused;
operations only ever touch ids of existing objects). -/
def getObj (s : State) (oid : Nat) : Obj :=
  s.objs.getD oid ⟨[], []⟩

/-- Read `object[key]`; `none` is JS `undefined` by absence. -/
def getSlot (s : State) (oid : Nat) (key : String) : Option Slot :=
  getField (getObj s oid).fields key

/-- Write `object[key] = slot`. -/
def setSlot (s : State) (oid : Nat) (key : String) (sl : Slot) : State :=
  { s with objs := s.objs.set oid { getObj s oid with fields := setField (getObj s oid).fields key sl } }

/-- The cell with a given id. -/
def getCell (s : State) (cid : Nat) : Cell :=
  s.cells.getD cid ⟨Val.undef, []⟩

/-- Replace the cell with a given id. -/
def setCell (s : State) (cid : Nat) (c : Cell) : State :=
  { s with cells := s.cells.set cid c }

/-- `cell.__observers[i]`: `none` is out of bounds (JS `undefined`),
`some none` a tombstoned (`null`) entry. -/
def obsAt (s : State) (cid i : Nat) : Option (Option Entry) :=
  (getCell s cid).observers[i]?

/-- The live entry at a table position, if any. -/
def entryAt (s : State) (cid i : Nat) : Option Entry :=
  match obsAt s cid i with
  | some (some e) => some e
  | _ => none

/-- Does `obj` define a `<key>Changed` callback?  (kvo.js probes this with
`key + 'Changed' in obj` at bind time and by truthiness at set time; the
model assumes callbacks are functions, so the two tests agree.) -/
def hasCallback (s : State) (oid : Nat) (key : String) : Bool :=
  (getObj s oid).callbacks.contains key

/-- kvo.js lines 51-53, `_isPropertyBound`:
`this[key] !== null && typeof this[key] === 'object' && '__myIndex' in this[key]`.
True for genuine descriptors and for any plain object value that happens to
carry a `__myIndex` property; false for `null`, `undefined` and
primitives. -/
def isPropertyBound (s : State) (oid : Nat) (key : String) : Bool :=
  match getSlot s oid key with
  | some (Slot.desc _) => true
  | some (Slot.plain (Val.obj _ (some _))) => true
  | _ => false

/-- The raw value of a slot as `this[key]` would read it when it is not a
descriptor (`undefined` when the key is absent). -/
def rawVal (sl : Option Slot) : Val :=
  match sl with
  | some (Slot.plain v) => v
  | some (Slot.desc _) => Val.undef
  | none => Val.undef

/-- kvo.js lines 181-184, `get`: return `this[key].__sharedObject.__value`
when `_isPropertyBound`, else the raw slot value.  On a plain object that
merely carries `__myIndex`, and on a descriptor whose `__sharedObject` is
`null`, the chained property access throws a TypeError. -/
def get (s : State) (oid : Nat) (key : String) : Except JsErr Val :=
  match getSlot s oid key with
  | some (Slot.desc d) =>
    match d.sharedObject with
    | some cid => Except.ok (getCell s cid).value
    | none => Except.error JsErr.typeError
  | some (Slot.plain (Val.obj _ (some _))) => Except.error JsErr.typeError
  | some (Slot.plain v) => Except.ok v
  | none => Except.ok Val.undef

/-- The callback invocation, if any, that the observer loop of `set`
(kvo.js lines 211-220) performs for one observer entry: skipped for `null`
entries and for owners without a `<key>Changed` callback, otherwise the
callback is called with the new value as argument. -/
def notifOf (s : State) (value : Val) (ob : Option Entry) : Option Notif :=
  match ob with
  | none => none
  | some e => if hasCallback s e.obj e.key then some ⟨e.obj, e.key, some value⟩ else none

/-- kvo.js lines 193-237, `set`.  Throws if the key is absent.  Bound case:
no-op when the cell value is `===` the new value and `forceCallback` is
falsy, otherwise write the cell value and invoke `<key>Changed(value)` on
every non-`null` observer entry whose owner defines one.  Plain case:
no-op when unchanged (regardless of `forceCallback`), otherwise write the
slot and invoke the owner's own `<key>Changed()`. -/
def set (s : State) (oid : Nat) (key : String) (value : Val) (forceCallback : Bool) : Outcome :=
  match getSlot s oid key with
  | none => ⟨s, [], some JsErr.undefinedSetProperty⟩
  | some (Slot.desc d) =>
    match d.sharedObject with
    | none => ⟨s, [], some JsErr.typeError⟩
    | some cid =>
      let c := getCell s cid
      if c.value.jsEq value && !forceCallback then ⟨s, [], none⟩
      else
        ⟨setCell s cid { c with value := value },
         c.observers.filterMap (notifOf s value),
         none⟩
  | some (Slot.plain (Val.obj _ (some _))) => ⟨s, [], some JsErr.typeError⟩
  | some (Slot.plain v) =>
    if v.jsEq value then ⟨s, [], none⟩
    else
      ⟨setSlot s oid key (Slot.plain value),
       if hasCallback s oid key then [⟨oid, key, none⟩] else [],
       none⟩

mutual

/-- kvo.js lines 61-78, `_updateObserverIndexes(key, offsetIncrease)`,
together with its `for (var i in this[key].__observerIndexes)` loop
(`updLoop` below).  The function adds the offset to `this[key].__myIndex`,
then for each position of `__observerIndexes` in order: if the shared
object's observer at that index is not `null`, recursively update that
observer first (a live aliasing cycle would recurse forever, which the
explicit fuel models; `null` observers are skipped); then add the offset to
the `__observerIndexes` element itself.  Every JS property access is
re-read from the current state exactly where the source re-reads it.  On a
plain object that merely carries `__myIndex`, `__myIndex += off` updates
that property and the `for-in` over the absent `__observerIndexes`
(`undefined`) iterates zero times.  On a primitive the property write is
silently discarded (non-strict mode); on an absent key the read of
`undefined.__myIndex` throws.  An observer index pointing outside the
observers array yields `undefined`, which is `!== null`, so the recursion
hits `undefined.obj` and throws a TypeError. -/
def updObs (fuel : Nat) (s : State) (oid : Nat) (key : String) (off : Nat) :
    State × Option JsErr :=
  match fuel with
  | 0 => (s, some JsErr.outOfFuel)
  | Nat.succ f =>
    match getSlot s oid key with
    | some (Slot.desc d) =>
      let s1 := setSlot s oid key (Slot.desc { d with myIndex := d.myIndex + off })
      updLoop f s1 oid key off 0 d.observerIndexes.length
    | some (Slot.plain (Val.obj oi (some z))) =>
      (setSlot s oid key (Slot.plain (Val.obj oi (some (z + Int.ofNat off)))), none)
    | some (Slot.plain _) => (s, none)
    | none => (s, some JsErr.typeError)

/-- The body of the `for (var i in this[key].__observerIndexes)` loop of
`_updateObserverIndexes`; `i` is the current position and `rem` the number
of remaining iterations.  Each iteration consumes one unit of fuel (a
modelling artifact only, see `updObs`). -/
def updLoop (fuel : Nat) (s : State) (oid : Nat) (key : String) (off : Nat) (i rem : Nat) :
    State × Option JsErr :=
  match fuel with
  | 0 => (s, some JsErr.outOfFuel)
  | Nat.succ f =>
    match rem with
    | 0 => (s, none)
    | Nat.succ rem1 =>
      match getSlot s oid key with
      | some (Slot.desc d) =>
        match d.observerIndexes[i]? with
        | none => (s, some JsErr.typeError)
        | some j =>
          match d.sharedObject with
          | none => (s, some JsErr.typeError)
          | some cid =>
            match obsAt s cid j with
            | none => (s, some JsErr.typeError)
            | some none =>
              let s1 := setSlot s oid key
                (Slot.desc { d with observerIndexes := d.observerIndexes.set i (j + off) })
              updLoop f s1 oid key off (i + 1) rem1
            | some (some e) =>
              match updObs f s e.obj e.key off with
              | (s1, some err) => (s1, some err)
              | (s1, none) =>
                match getSlot s1 oid key with
                | some (Slot.desc d1) =>
                  match d1.observerIndexes[i]? with
                  | some j1 =>
                    updLoop f
                      (setSlot s1 oid key
                        (Slot.desc { d1 with observerIndexes := d1.observerIndexes.set i (j1 + off) }))
                      oid key off (i + 1) rem1
                  | none => (s1, some JsErr.typeError)
                | _ => (s1, some JsErr.typeError)
      | _ => (s, some JsErr.typeError)

end

/-- JS `for (var i in array)` yields the array keys as strings, so the test
`i === targetObserversLength` on kvo.js line 163 strictly compares a string
against a number.  Strict equality between values of different types is
always false, hence this definition: the test never succeeds, whatever the
numbers are. -/
def strictEqStringNumber (_i _n : Nat) : Bool := false

/-- The value of `this[key].__myIndex` as read by kvo.js line 122 (`none`
when the access would yield `undefined`). -/
def myIndexOf (sl : Option Slot) : Option Int :=
  match sl with
  | some (Slot.desc d) => some (Int.ofNat d.myIndex)
  | some (Slot.plain (Val.obj _ m)) => m
  | _ => none

/-- Read `object[key].__sharedObject` where a cell id is expected: `none`
when the slot is not a descriptor with a cell, in which case the caller
raises the TypeError the chained JS access would. -/
def cellIdThrough (s : State) (oid : Nat) (key : String) : Option Nat :=
  match getSlot s oid key with
  | some (Slot.desc d) => d.sharedObject
  | _ => none

/-- kvo.js lines 152-172: the final loop of `bindTo` over
`target[targetKey].__sharedObject.__observers`.  Positions below
`targetObserversLength` (`n`) and `null` entries are skipped; every other
entry's owner gets its descriptor's `__sharedObject` repointed at the
target's cell, and then, unless the cell's value is `===` the captured
`observersValue` (or the never-true string/number strict equality with
`noNotify` fires, see `strictEqStringNumber`), the owner's `<key>Changed()`
is invoked without argument if defined.  Property reads through the target
slot are re-read from the current state each time, as in the source. -/
def bindLoop (s : State) (targetId : Nat) (tk : String) (n : Nat) (obsValue : Val)
    (noNotify : Bool) (acc : List Notif) (i rem : Nat) : Outcome :=
  match rem with
  | 0 => ⟨s, acc, none⟩
  | Nat.succ rem1 =>
    if i < n then bindLoop s targetId tk n obsValue noNotify acc (i + 1) rem1
    else
      match cellIdThrough s targetId tk with
      | none => ⟨s, acc, some JsErr.typeError⟩
      | some ct =>
        match obsAt s ct i with
        | none => ⟨s, acc, some JsErr.typeError⟩
        | some none => bindLoop s targetId tk n obsValue noNotify acc (i + 1) rem1
        | some (some e) =>
          match getSlot s e.obj e.key with
          | none => ⟨s, acc, some JsErr.typeError⟩
          | some sl =>
            let s1 :=
              match sl with
              | Slot.desc d => setSlot s e.obj e.key (Slot.desc { d with sharedObject := some ct })
              | Slot.plain _ => s
            match cellIdThrough s1 targetId tk with
            | none => ⟨s1, acc, some JsErr.typeError⟩
            | some ct2 =>
              if (getCell s1 ct2).value.jsEq obsValue || (strictEqStringNumber i n && noNotify) then
                bindLoop s1 targetId tk n obsValue noNotify acc (i + 1) rem1
              else if hasCallback s1 e.obj e.key then
                bindLoop s1 targetId tk n obsValue noNotify (acc ++ [⟨e.obj, e.key, none⟩]) (i + 1) rem1
              else bindLoop s1 targetId tk n obsValue noNotify acc (i + 1) rem1

/-- kvo.js lines 98-110: if the target's slot is not `_isPropertyBound`,
promote it to a descriptor at index 0 of a fresh single-entry cell
carrying the prior raw value. -/
def promoteTarget (s : State) (targetId : Nat) (tk : String) : State :=
  if isPropertyBound s targetId tk then s
  else
    setSlot
      { s with cells := s.cells ++ [⟨rawVal (getSlot s targetId tk), [some ⟨targetId, tk⟩]⟩] }
      targetId tk (Slot.desc ⟨0, [], some s.cells.length⟩)

/-- kvo.js lines 129-133: the merge of an already-bound source whose
`__myIndex` is 0, entered after `_updateObserverIndexes` succeeded; the
source's observer array is concatenated after the target's, re-reading
every property from the current state. -/
def mergeObservers (s3 : State) (selfId : Nat) (key : String) (targetId : Nat) (tk : String)
    (n : Nat) (noNotify : Bool) : Outcome :=
  match getSlot s3 targetId tk, getSlot s3 selfId key with
  | some (Slot.desc dT3), some (Slot.desc dS3) =>
    match dT3.sharedObject, dS3.sharedObject with
    | some ct3, some cs3 =>
      let s4 := setCell s3 ct3 { getCell s3 ct3 with
        observers := (getCell s3 ct3).observers ++ (getCell s3 cs3).observers }
      bindLoop s4 targetId tk n ((getCell s4 cs3).value) noNotify [] 0
        ((getCell s4 ct3).observers.length)
    | _, _ => ⟨s3, [], some JsErr.typeError⟩
  | _, _ => ⟨s3, [], some JsErr.typeError⟩

/-- kvo.js lines 134-150: promotion of a plain (or absent) source slot to
a leaf descriptor with `__myIndex = n` and `__sharedObject: null`,
appending its entry to the target's observers, followed by the
rewire/notify loop. -/
def plainSource (s2 : State) (selfId : Nat) (key : String) (targetId : Nat) (tk : String)
    (n : Nat) (noNotify : Bool) : Outcome :=
  let obsValue := rawVal (getSlot s2 selfId key)
  let s3 := setSlot s2 selfId key (Slot.desc ⟨n, [], none⟩)
  match getSlot s3 targetId tk with
  | some (Slot.desc dT4) =>
    match dT4.sharedObject with
    | some ct4 =>
      let s4 := setCell s3 ct4 { getCell s3 ct4 with
        observers := (getCell s3 ct4).observers ++ [some ⟨selfId, key⟩] }
      bindLoop s4 targetId tk n obsValue noNotify [] 0
        ((getCell s4 ct4).observers.length)
    | none => ⟨s3, [], some JsErr.typeError⟩
  | _ => ⟨s3, [], some JsErr.typeError⟩

/-- kvo.js lines 118-172: the branch on `_isPropertyBound(key)` of the
source object, entered on the state in which `n` has already been pushed
onto the target descriptor's `__observerIndexes`. -/
def bindSource (fuel : Nat) (s2 : State) (selfId : Nat) (key : String) (targetId : Nat)
    (tk : String) (n : Nat) (noNotify : Bool) : Outcome :=
  if isPropertyBound s2 selfId key then
    if myIndexOf (getSlot s2 selfId key) ≠ some 0 then ⟨s2, [], some JsErr.alreadyBound⟩
    else
      match updObs fuel s2 selfId key n with
      | (s3, some e) => ⟨s3, [], some e⟩
      | (s3, none) => mergeObservers s3 selfId key targetId tk n noNotify
  else plainSource s2 selfId key targetId tk n noNotify

/-- kvo.js lines 88-174, `bindTo(key, target, targetKey, noNotify)`, called
on the object `selfId`.  `targetKey` defaults to `key` (the JS
`targetKey || key`; the empty-string edge of `||` is not modelled).
Steps, in source order: throw if `targetKey` is not a property of the
target; promote the target slot if it is not `_isPropertyBound`
(`promoteTarget`); capture `n`, the current observer count; push `n` onto
the target descriptor's `__observerIndexes`; then branch on the source's
state (`bindSource`): merge an already-bound source (rejecting a source
whose `__myIndex !== 0` with the "already bound" throw, else offsetting
the source group by `n` via `_updateObserverIndexes` and concatenating the
observer arrays, `mergeObservers`) or promote a plain source
(`plainSource`); finally run the rewire/notify loop (`bindLoop`).  A
target slot holding a plain object that merely carries `__myIndex` passes
`_isPropertyBound`, so line 113 dereferences its absent `__sharedObject`
and throws; likewise a merged source whose slot is such a plain object
with `__myIndex` equal to `0` reaches line 130 and throws after its
`__myIndex` got the offset added. -/
def bindTo (fuel : Nat) (s : State) (selfId : Nat) (key : String) (targetId : Nat)
    (targetKeyOpt : Option String) (noNotify : Bool) : Outcome :=
  let tk := targetKeyOpt.getD key
  match getSlot s targetId tk with
  | none => ⟨s, [], some JsErr.undefinedTargetProperty⟩
  | some _ =>
    let s1 := promoteTarget s targetId tk
    match getSlot s1 targetId tk with
    | some (Slot.desc dT) =>
      match dT.sharedObject with
      | none => ⟨s1, [], some JsErr.typeError⟩
      | some ct =>
        let n := (getCell s1 ct).observers.length
        let s2 := setSlot s1 targetId tk
          (Slot.desc { dT with observerIndexes := dT.observerIndexes ++ [n] })
        bindSource fuel s2 selfId key targetId tk n noNotify
    | some (Slot.plain _) => ⟨s1, [], some JsErr.typeError⟩
    | none => ⟨s1, [], some JsErr.typeError⟩

/-- Modelled from the claim's words, for comparison with the code's
`_isPropertyBound`: the slot holds a non-null object value containing a
`__myIndex` property.  In the model these object values are exactly the
binding descriptors (whose representation always carries `__myIndex`) and
the plain object values that happen to carry a `__myIndex` field. -/
def boundShapeSpec : Option Slot → Bool
  | some (Slot.desc _) => true
  | some (Slot.plain (Val.obj _ (some _))) => true
  | some (Slot.plain _) => false
  | none => false

/-- A slot on which the chained property reads of `get` cannot throw: it is
absent, a plain value that does not masquerade as a descriptor, or a
descriptor whose `__sharedObject` is set. -/
def slotReadable (s : State) (oid : Nat) (key : String) : Bool :=
  match getSlot s oid key with
  | some (Slot.desc d) => d.sharedObject.isSome
  | some (Slot.plain v) => !(boundShapeSpec (some (Slot.plain v)))
  | none => true

/-- A target slot on which `bindTo` gets past its promotion step without
throwing: present, and either a genuine descriptor with a cell or a plain
value that does not masquerade as a descriptor. -/
def targetBindable (s : State) (targetId : Nat) (tk : String) : Bool :=
  match getSlot s targetId tk with
  | some (Slot.desc d) => d.sharedObject.isSome
  | some (Slot.plain v) => !(boundShapeSpec (some (Slot.plain v)))
  | none => false

/-! ### Proxy trees

The recursive traversal of `_updateObserverIndexes` follows the
`__observerIndexes` lists: from an attribute it visits, in order, each
table position stored in its list, recursing into live entries.  To reason
about it we describe the positions it can reach as an explicit tree: a
`PT.node i cs` is a live table position `i` whose descriptor's
`__observerIndexes` are the roots of `cs`, and a `PT.dead i` is a
tombstoned position appearing in some list.  `ptMatch` checks that a tree
describes the actual state. -/

mutual

inductive PT where
  | node : Nat → PL → PT
  | dead : Nat → PT
deriving DecidableEq, Repr

inductive PL where
  | nil : PL
  | cons : PT → PL → PL
deriving DecidableEq, Repr

end

/-- The table position at the root of a proxy tree. -/
def rootIdxPT : PT → Nat
  | PT.node i _ => i
  | PT.dead i => i

/-- The root positions of a list of proxy trees - the contents of the
parent's `__observerIndexes`. -/
def plRoots : PL → List Nat
  | PL.nil => []
  | PL.cons c rest => rootIdxPT c :: plRoots rest

/-- The number of trees in the list - the length of the parent's
`__observerIndexes`. -/
def plLen : PL → Nat
  | PL.nil => 0
  | PL.cons _ rest => plLen rest + 1

mutual

/-- The live (non-tombstoned) positions of a proxy tree, in traversal
order. -/
def liveIdxPT : PT → List Nat
  | PT.node i cs => i :: liveIdxPL cs
  | PT.dead _ => []

def liveIdxPL : PL → List Nat
  | PL.nil => []
  | PL.cons c rest => liveIdxPT c ++ liveIdxPL rest

end

mutual

/-- All positions mentioned by a proxy tree, tombstoned ones included. -/
def allIdxPT : PT → List Nat
  | PT.node i cs => i :: allIdxPL cs
  | PT.dead i => [i]

def allIdxPL : PL → List Nat
  | PL.nil => []
  | PL.cons c rest => allIdxPT c ++ allIdxPL rest

end

mutual

/-- Fuel weight of a tree: an upper bound on the fuel the traversal of
`updObs`/`updLoop` consumes on it. -/
def wtPT : PT → Nat
  | PT.node _ cs => 2 + wtPL cs
  | PT.dead _ => 1

def wtPL : PL → Nat
  | PL.nil => 0
  | PL.cons c rest => wtPT c + wtPL rest

end

mutual

/-- Does the proxy tree describe the state?  A `node i cs` requires a live
entry at position `i` of cell `cid`'s table whose owner's slot is a
descriptor with `__myIndex = i`, `__sharedObject = cid` and
`__observerIndexes` equal to the roots of `cs`, the children matching
recursively; a `dead i` requires a tombstone at position `i`. -/
def ptMatch (s : State) (cid : Nat) : PT → Bool
  | PT.node i cs =>
    match obsAt s cid i with
    | some (some e) =>
      match getSlot s e.obj e.key with
      | some (Slot.desc d) =>
        (d.myIndex == i) && (d.sharedObject == some cid) &&
        (d.observerIndexes == plRoots cs) && plMatch s cid cs
      | _ => false
    | _ => false
  | PT.dead i =>
    match obsAt s cid i with
    | some none => true
    | _ => false

def plMatch (s : State) (cid : Nat) : PL → Bool
  | PL.nil => true
  | PL.cons c rest => ptMatch s cid c && plMatch s cid rest

end

/-- The descriptor after `_updateObserverIndexes` has added `off` to its
`__myIndex` and to every element of its `__observerIndexes`. -/
def shiftDesc (off : Nat) (d : Desc) : Desc :=
  ⟨d.myIndex + off, d.observerIndexes.map (fun j => j + off), d.sharedObject⟩

/-- The live entries found at the given table positions. -/
def liveEntries (s : State) (cid : Nat) (idxs : List Nat) : List Entry :=
  idxs.filterMap (fun i => entryAt s cid i)

/-- All slots of the given live positions were replaced by the shifted
versions of what they held in `s`. -/
def ShiftedAt (s s2 : State) (cid off : Nat) (idxs : List Nat) : Prop :=
  ∀ i ∈ idxs, ∀ e d, obsAt s cid i = some (some e) →
    getSlot s e.obj e.key = some (Slot.desc d) →
    getSlot s2 e.obj e.key = some (Slot.desc (shiftDesc off d))

/-- Everything except the listed slots is as it was: the cells, the heap
size, every callback set, and every slot whose owner/key pair is not in
`touched`. -/
def UntouchedOutside (s s2 : State) (touched : List Entry) : Prop :=
  s2.cells = s.cells ∧
  s2.objs.length = s.objs.length ∧
  (∀ o, (getObj s2 o).callbacks = (getObj s o).callbacks) ∧
  (∀ o k, (⟨o, k⟩ : Entry) ∉ touched → getSlot s2 o k = getSlot s o k)

/-! ### Concrete states used by witnesses and counterexamples -/

/-- Three attributes aliased by one cell (the result of a chain of two
binds), the first two owners with a `kChanged` callback. -/
def stChain : State :=
  ⟨[⟨[("k", Slot.desc ⟨0, [1], some 0⟩)], ["k"]⟩,
    ⟨[("k", Slot.desc ⟨1, [2], some 0⟩)], ["k"]⟩,
    ⟨[("k", Slot.desc ⟨2, [], some 0⟩)], []⟩],
   [⟨Val.str "old", [some ⟨0, "k"⟩, some ⟨1, "k"⟩, some ⟨2, "k"⟩]⟩]⟩

/-- One object with a never-bound plain attribute and a `kChanged`
callback. -/
def stPlainCb : State :=
  ⟨[⟨[("k", Slot.plain (Val.str "a"))], ["k"]⟩], []⟩

/-- A plain model object (id 0, value `"Bob"`) and a plain controller
object (id 1, value `"X"`) with a `nameChanged` callback: the spec's
noNotify scenario before the first bind. -/
def stNoNotify : State :=
  ⟨[⟨[("name", Slot.plain (Val.str "Bob"))], []⟩,
    ⟨[("name", Slot.plain (Val.str "X"))], ["name"]⟩], []⟩

/-- An ordinary object value that happens to carry a `__myIndex` property
(value 3) - the structural-classification trap of C10. -/
def wMis : Val := Val.obj 7 (some 3)

/-- Two objects with plain string attributes; storing `wMis` into the
first slot produces a misclassified slot. -/
def stMis : State :=
  ⟨[⟨[("k", Slot.plain (Val.str "a"))], []⟩,
    ⟨[("k", Slot.plain (Val.str "z"))], []⟩], []⟩

/-- The spec's merge scenario: group P (id 0, root), Q (id 1) on cell 0
and group X (id 2, root), Y (id 3) on cell 1, Q and Y with `kChanged`
callbacks; binding X into P merges the two tables. -/
def stMerge : State :=
  ⟨[⟨[("k", Slot.desc ⟨0, [1], some 0⟩)], []⟩,
    ⟨[("k", Slot.desc ⟨1, [], some 0⟩)], ["k"]⟩,
    ⟨[("k", Slot.desc ⟨0, [1], some 1⟩)], []⟩,
    ⟨[("k", Slot.desc ⟨1, [], some 1⟩)], ["k"]⟩],
   [⟨Val.str "pv", [some ⟨0, "k"⟩, some ⟨1, "k"⟩]⟩,
    ⟨Val.str "xv", [some ⟨2, "k"⟩, some ⟨3, "k"⟩]⟩]⟩

/-- The proxy tree of X's group in `stMerge`: X at position 0 with the
single downstream member Y at position 1. -/
def tMerge : PT := PT.node 0 (PL.cons (PT.node 1 PL.nil) PL.nil)

/-- P (id 0, root) and X (id 1, non-root member) sharing cell 0, plus a
plain Q (id 2): the AlreadySourced scenario. -/
def stAlready : State :=
  ⟨[⟨[("k", Slot.desc ⟨0, [1], some 0⟩)], []⟩,
    ⟨[("k", Slot.desc ⟨1, [], some 0⟩)], []⟩,
    ⟨[("k", Slot.plain (Val.str "q"))], []⟩],
   [⟨Val.str "v", [some ⟨0, "k"⟩, some ⟨1, "k"⟩]⟩]⟩

/-- Decidable form of the table invariant: every live entry at position `i`
of cell `cid`'s table owns a descriptor slot with `__myIndex = i` and
`__sharedObject = cid`. -/
def tableOk (s : State) (cid : Nat) : Bool :=
  (List.range (getCell s cid).observers.length).all (fun i =>
    match obsAt s cid i with
    | some (some e) =>
      match getSlot s e.obj e.key with
      | some (Slot.desc d) => (d.myIndex == i) && (d.sharedObject == some cid)
      | _ => false
    | _ => true)

/-- All owner/key pairs whose slot is a descriptor referencing cell `cid`:
the descriptors that would dangle if `cid` were abandoned. -/
def descRefs (s : State) (cid : Nat) : List Entry :=
  (List.range s.objs.length).flatMap (fun o =>
    ((getObj s o).fields.map Prod.fst).filterMap (fun k =>
      match getSlot s o k with
      | some (Slot.desc d) => if d.sharedObject = some cid then some ⟨o, k⟩ else none
      | _ => none))

/-! ### Basic algebra of the state operations -/

theorem getField_setField_self (f : List (String × Slot)) (k : String) (v : Slot) :
    getField (setField f k v) k = some v := by
  induction f with
  | nil => simp [getField, setField]
  | cons hd tl ih =>
    by_cases h : hd.1 = k
    · simp [getField, setField, h]
    · simp [getField, setField, h, ih]

theorem getField_setField_ne (f : List (String × Slot)) (k k2 : String) (v : Slot)
    (h : k2 ≠ k) : getField (setField f k v) k2 = getField f k2 := by
  induction f with
  | nil => simp [getField, setField, Ne.symm h]
  | cons hd tl ih =>
    by_cases h1 : hd.1 = k
    · simp [getField, setField, h1, h, Ne.symm h]
    · simp [getField, setField, h1, ih]

theorem getObj_oob (s : State) (oid : Nat) (h : ¬ oid < s.objs.length) :
    getObj s oid = ⟨[], []⟩ := by
  simp [getObj, List.getD_eq_getElem?_getD, List.getElem?_eq_none (Nat.le_of_not_lt h)]

theorem getSlot_some_lt {s : State} {oid : Nat} {key : String} {sl : Slot}
    (h : getSlot s oid key = some sl) : oid < s.objs.length := by
  by_contra hn
  rw [getSlot, getObj_oob s oid hn] at h
  simp [getField] at h

theorem getObj_set_self (s : State) (oid : Nat) (ob : Obj) (h : oid < s.objs.length) :
    getObj { s with objs := s.objs.set oid ob } oid = ob := by
  simp [getObj, List.getD_eq_getElem?_getD, List.getElem?_set_self h]

theorem getObj_set_ne (s : State) (oid o : Nat) (ob : Obj) (h : o ≠ oid) :
    getObj { s with objs := s.objs.set oid ob } o = getObj s o := by
  simp [getObj, List.getD_eq_getElem?_getD, List.getElem?_set_ne (Ne.symm h)]

theorem getSlot_setSlot_self (s : State) (oid : Nat) (key : String) (sl : Slot)
    (h : oid < s.objs.length) :
    getSlot (setSlot s oid key sl) oid key = some sl := by
  simp [getSlot, setSlot, getObj_set_self _ _ _ h, getField_setField_self]

theorem getSlot_setSlot_ne (s : State) (oid o : Nat) (key k2 : String) (sl : Slot)
    (h : ¬ (o = oid ∧ k2 = key)) :
    getSlot (setSlot s oid key sl) o k2 = getSlot s o k2 := by
  by_cases ho : o = oid
  · subst ho
    have hk : k2 ≠ key := fun hk => h ⟨rfl, hk⟩
    by_cases hlt : o < s.objs.length
    · simp [getSlot, setSlot, getObj_set_self _ _ _ hlt, getField_setField_ne _ _ _ _ hk]
    · simp [setSlot, getSlot, getObj_oob _ _ hlt,
        getObj_oob { s with objs := s.objs.set o _ } o (by simpa using hlt)]
  · simp [getSlot, setSlot, getObj_set_ne _ _ _ _ ho]

theorem cells_setSlot (s : State) (oid : Nat) (key : String) (sl : Slot) :
    (setSlot s oid key sl).cells = s.cells := rfl

theorem getCell_setSlot (s : State) (oid : Nat) (key : String) (sl : Slot) (cid : Nat) :
    getCell (setSlot s oid key sl) cid = getCell s cid := rfl

theorem obsAt_setSlot (s : State) (oid : Nat) (key : String) (sl : Slot) (cid i : Nat) :
    obsAt (setSlot s oid key sl) cid i = obsAt s cid i := rfl

theorem callbacks_setSlot (s : State) (oid : Nat) (key : String) (sl : Slot) (o : Nat) :
    (getObj (setSlot s oid key sl) o).callbacks = (getObj s o).callbacks := by
  by_cases ho : o = oid
  · subst ho
    by_cases hlt : o < s.objs.length
    · simp [setSlot, getObj_set_self _ _ _ hlt]
    · simp [setSlot, getObj_oob _ _ hlt,
        getObj_oob { s with objs := s.objs.set o _ } o (by simpa using hlt)]
  · simp [setSlot, getObj_set_ne _ _ _ _ ho]

theorem hasCallback_setSlot (s : State) (oid : Nat) (key : String) (sl : Slot) (o : Nat) (k : String) :
    hasCallback (setSlot s oid key sl) o k = hasCallback s o k := by
  simp [hasCallback, callbacks_setSlot]

theorem objs_length_setSlot (s : State) (oid : Nat) (key : String) (sl : Slot) :
    (setSlot s oid key sl).objs.length = s.objs.length := by
  simp [setSlot]

theorem getSlot_setCell (s : State) (cid : Nat) (c : Cell) (o : Nat) (k : String) :
    getSlot (setCell s cid c) o k = getSlot s o k := rfl

theorem callbacks_setCell (s : State) (cid : Nat) (c : Cell) (o : Nat) :
    (getObj (setCell s cid c) o).callbacks = (getObj s o).callbacks := rfl

theorem hasCallback_setCell (s : State) (cid : Nat) (c : Cell) (o : Nat) (k : String) :
    hasCallback (setCell s cid c) o k = hasCallback s o k := rfl

theorem getCell_setCell_self (s : State) (cid : Nat) (c : Cell) (h : cid < s.cells.length) :
    getCell (setCell s cid c) cid = c := by
  simp [getCell, setCell, List.getD_eq_getElem?_getD, List.getElem?_set_self h]

theorem getCell_setCell_ne (s : State) (cid c2 : Nat) (c : Cell) (h : c2 ≠ cid) :
    getCell (setCell s cid c) c2 = getCell s c2 := by
  simp [getCell, setCell, List.getD_eq_getElem?_getD, List.getElem?_set_ne (Ne.symm h)]

theorem getCell_append (s : State) (c : Cell) (cid : Nat) (h : cid < s.cells.length) :
    getCell { s with cells := s.cells ++ [c] } cid = getCell s cid := by
  simp [getCell, List.getD_eq_getElem?_getD, List.getElem?_append_left h]

theorem getSlot_cells_irrel (s : State) (cs : List Cell) (o : Nat) (k : String) :
    getSlot { s with cells := cs } o k = getSlot s o k := rfl

theorem getCell_append_self (s : State) (c : Cell) :
    getCell { s with cells := s.cells ++ [c] } s.cells.length = c := by
  simp [getCell, List.getD_eq_getElem?_getD, List.getElem?_concat_length]

/-! ### Stage equations for `bindTo` -/

theorem promoteTarget_bound (s : State) (targetId : Nat) (tk : String)
    (h : isPropertyBound s targetId tk = true) : promoteTarget s targetId tk = s := by
  simp [promoteTarget, h]

theorem promoteTarget_plain (s : State) (targetId : Nat) (tk : String)
    (h : isPropertyBound s targetId tk = false) :
    promoteTarget s targetId tk =
      setSlot { s with cells := s.cells ++ [⟨rawVal (getSlot s targetId tk), [some ⟨targetId, tk⟩]⟩] }
        targetId tk (Slot.desc ⟨0, [], some s.cells.length⟩) := by
  simp [promoteTarget, h]

theorem bindTo_eq_bindSource (fuel : Nat) (s : State) (selfId : Nat) (key : String)
    (targetId : Nat) (tkOpt : Option String) (noNotify : Bool) (sl0 : Slot) (dT : Desc) (ct : Nat)
    (hs0 : getSlot s targetId (tkOpt.getD key) = some sl0)
    (hdT : getSlot (promoteTarget s targetId (tkOpt.getD key)) targetId (tkOpt.getD key) =
      some (Slot.desc dT))
    (hso : dT.sharedObject = some ct) :
    bindTo fuel s selfId key targetId tkOpt noNotify =
      bindSource fuel
        (setSlot (promoteTarget s targetId (tkOpt.getD key)) targetId (tkOpt.getD key)
          (Slot.desc { dT with observerIndexes := dT.observerIndexes ++
            [(getCell (promoteTarget s targetId (tkOpt.getD key)) ct).observers.length] }))
        selfId key targetId (tkOpt.getD key)
        ((getCell (promoteTarget s targetId (tkOpt.getD key)) ct).observers.length) noNotify := by
  simp only [bindTo, hs0, hdT, hso]

theorem bindSource_alreadyBound (fuel : Nat) (s2 : State) (selfId : Nat) (key : String)
    (targetId : Nat) (tk : String) (n : Nat) (noNotify : Bool) (dS : Desc)
    (h1 : getSlot s2 selfId key = some (Slot.desc dS)) (hnz : dS.myIndex ≠ 0) :
    bindSource fuel s2 selfId key targetId tk n noNotify = ⟨s2, [], some JsErr.alreadyBound⟩ := by
  have hb : isPropertyBound s2 selfId key = true := by simp [isPropertyBound, h1]
  have hm : myIndexOf (getSlot s2 selfId key) = some (Int.ofNat dS.myIndex) := by
    simp [myIndexOf, h1]
  simp [bindSource, hb, hm, Int.ofNat_eq_zero, hnz]

/-! ### Counting the notifications emitted by `set` on a bound slot -/

theorem count_notifOf_zero (s : State) (v : Val) (obs : List (Option Entry)) (e : Entry)
    (hnot : some e ∉ obs) :
    (obs.filterMap (notifOf s v)).count ⟨e.obj, e.key, some v⟩ = 0 := by
  induction obs with
  | nil => simp
  | cons hd tl ih =>
    have htl : some e ∉ tl := fun h => hnot (List.mem_cons_of_mem _ h)
    match hd with
    | none => simpa [notifOf] using ih htl
    | some e2 =>
      have hne : e2 ≠ e := by
        intro h
        exact hnot (by simp [h])
      by_cases hcb : hasCallback s e2.obj e2.key
      · have : (⟨e2.obj, e2.key, some v⟩ : Notif) ≠ ⟨e.obj, e.key, some v⟩ := by
          intro h
          apply hne
          cases e2
          cases e
          simpa using h
        simp [notifOf, hcb, List.count_cons, this, ih htl]
      · simpa [notifOf, hcb] using ih htl

theorem count_notifOf (s : State) (v : Val) (obs : List (Option Entry)) (e : Entry)
    (hnd : (obs.filterMap id).Nodup) (he : some e ∈ obs) :
    (obs.filterMap (notifOf s v)).count ⟨e.obj, e.key, some v⟩ =
      if hasCallback s e.obj e.key then 1 else 0 := by
  induction obs with
  | nil => simp at he
  | cons hd tl ih =>
    match hd with
    | none =>
      have he2 : some e ∈ tl := by
        rcases List.mem_cons.mp he with h | h
        · exact absurd h (by simp)
        · exact h
      simpa [notifOf] using ih (by simpa using hnd) he2
    | some e2 =>
      have hnd2 : (tl.filterMap id).Nodup := (List.nodup_cons.mp (by simpa using hnd)).2
      by_cases heq : e2 = e
      · subst heq
        have hni : e2 ∉ tl.filterMap id := (List.nodup_cons.mp (by simpa using hnd)).1
        have hnotl : some e2 ∉ tl := fun h => hni (List.mem_filterMap.mpr ⟨some e2, h, rfl⟩)
        have hz := count_notifOf_zero s v tl e2 hnotl
        by_cases hcb : hasCallback s e2.obj e2.key
        · simp [notifOf, hcb, List.count_cons, hz]
        · simp [notifOf, hcb, hz]
      · have he2 : some e ∈ tl := by
          rcases List.mem_cons.mp he with h | h
          · exact absurd (by injection h with h2; exact h2.symm) heq
          · exact h
        by_cases hcb : hasCallback s e2.obj e2.key
        · have : (⟨e2.obj, e2.key, some v⟩ : Notif) ≠ ⟨e.obj, e.key, some v⟩ := by
            intro h
            apply heq
            cases e2
            cases e
            simpa using h
          simp [notifOf, hcb, List.count_cons, this, ih hnd2 he2]
        · simpa [notifOf, hcb] using ih hnd2 he2

theorem mem_notifOf (s : State) (v : Val) (obs : List (Option Entry)) (nf : Notif)
    (h : nf ∈ obs.filterMap (notifOf s v)) :
    nf.arg = some v ∧ some (⟨nf.obj, nf.key⟩ : Entry) ∈ obs ∧
      hasCallback s nf.obj nf.key = true := by
  rcases List.mem_filterMap.mp h with ⟨ob, hmem, hf⟩
  match ob with
  | none => simp [notifOf] at hf
  | some e =>
    by_cases hcb : hasCallback s e.obj e.key
    · rw [notifOf] at hf
      simp [hcb] at hf
      refine ⟨by simp [← hf], ?_, by simp [← hf, hcb]⟩
      have : (⟨nf.obj, nf.key⟩ : Entry) = e := by
        cases e
        simp [← hf]
      rw [this]
      exact hmem
    · simp [notifOf, hcb] at hf

/-- The bound branch of `set` when the value-unchanged guard does not fire:
the cell value is written and the observer loop runs. -/
theorem set_bound_eq (s : State) (oid : Nat) (key : String) (v : Val) (force : Bool)
    (d : Desc) (cid : Nat)
    (hs : getSlot s oid key = some (Slot.desc d))
    (hcid : d.sharedObject = some cid)
    (hguard : (getCell s cid).value.jsEq v = false ∨ force = true) :
    set s oid key v force =
      ⟨setCell s cid { getCell s cid with value := v },
       (getCell s cid).observers.filterMap (notifOf s v), none⟩ := by
  rcases hguard with h | h
  · simp [set, hs, hcid, h]
  · subst h
    simp [set, hs, hcid]

/-- The structural classification of `_isPropertyBound` matches the shape
predicate `boundShapeSpec` on every slot. -/
theorem isPropertyBound_eq (s : State) (oid : Nat) (key : String) :
    isPropertyBound s oid key = boundShapeSpec (getSlot s oid key) := by
  unfold isPropertyBound boundShapeSpec
  cases getSlot s oid key with
  | none => rfl
  | some sl =>
    cases sl with
    | desc d => rfl
    | plain v =>
      cases v with
      | undef => rfl
      | null => rfl
      | str a => rfl
      | int a => rfl
      | bool a => rfl
      | obj a m =>
        cases m with
        | none => rfl
        | some z => rfl

/-! ### Claims -/

/-- C9: if the (defaulted) target key is not present on the target object,
`bindTo` fails immediately with the missing-attribute error and the state
is exactly the input state: no mutation of any participant occurred and no
callback was invoked. -/
theorem claim_C9_missing_attribute (fuel : Nat) (s : State) (selfId : Nat) (key : String)
    (targetId : Nat) (tkOpt : Option String) (noNotify : Bool)
    (h : getSlot s targetId (tkOpt.getD key) = none) :
    bindTo fuel s selfId key targetId tkOpt noNotify =
      ⟨s, [], some JsErr.undefinedTargetProperty⟩ := by
  simp [bindTo, h]

/-- Witness for C9 at a concrete input: object 0 has attribute `"a"` but
not `"b"`, and binding to `"b"` fails without mutation. -/
theorem claim_C9_witness :
    getSlot stPlainCb 0 "b" = none ∧
    bindTo 3 stPlainCb 1 "b" 0 none false = ⟨stPlainCb, [], some JsErr.undefinedTargetProperty⟩ :=
  ⟨by decide, claim_C9_missing_attribute 3 stPlainCb 1 "b" 0 none false (by decide)⟩

/-- C6: when the slot exists and `Get` already returns a value strictly
equal to `v`, `Set` without `forceCallback` is a complete no-op: the state
is returned unchanged and no callback is invoked, in both the plain and
the bound case. -/
theorem claim_C6_noop_on_unchanged (s : State) (oid : Nat) (key : String) (v gv : Val)
    (hsome : (getSlot s oid key).isSome = true)
    (hget : get s oid key = Except.ok gv)
    (heq : gv.jsEq v = true) :
    set s oid key v false = ⟨s, [], none⟩ := by
  match hs : getSlot s oid key with
  | none => rw [hs] at hsome; simp at hsome
  | some (Slot.desc d) =>
    match hd : d.sharedObject with
    | none => simp [get, hs, hd] at hget
    | some cid =>
      simp [get, hs, hd] at hget
      subst hget
      simp [set, hs, hd, heq]
  | some (Slot.plain (Val.obj a (some z))) => simp [get, hs] at hget
  | some (Slot.plain (Val.obj a none)) =>
    simp [get, hs] at hget
    subst hget
    simp [set, hs, heq]
  | some (Slot.plain Val.undef) =>
    simp [get, hs] at hget
    subst hget
    simp [set, hs, heq]
  | some (Slot.plain Val.null) =>
    simp [get, hs] at hget
    subst hget
    simp [set, hs, heq]
  | some (Slot.plain (Val.str a)) =>
    simp [get, hs] at hget
    subst hget
    simp [set, hs, heq]
  | some (Slot.plain (Val.int a)) =>
    simp [get, hs] at hget
    subst hget
    simp [set, hs, heq]
  | some (Slot.plain (Val.bool a)) =>
    simp [get, hs] at hget
    subst hget
    simp [set, hs, heq]

/-- Witness for C6 at a concrete input: setting the current value on a
bound attribute changes nothing and notifies nobody. -/
theorem claim_C6_witness :
    (getSlot stChain 1 "k").isSome = true ∧
    get stChain 1 "k" = Except.ok (Val.str "old") ∧
    (Val.str "old").jsEq (Val.str "old") = true ∧
    set stChain 1 "k" (Val.str "old") false = ⟨stChain, [], none⟩ :=
  ⟨by decide, by rfl, by decide,
   claim_C6_noop_on_unchanged stChain 1 "k" (Val.str "old") (Val.str "old")
     (by decide) (by rfl) (by decide)⟩

/-- On a plain slot that does not masquerade as a descriptor, `get`
returns the stored value. -/
theorem get_plain_eq (s : State) (oid : Nat) (key : String) (v : Val)
    (hs : getSlot s oid key = some (Slot.plain v))
    (hn : boundShapeSpec (some (Slot.plain v)) = false) :
    get s oid key = Except.ok v := by
  cases v with
  | obj a m =>
    cases m with
    | none => simp [get, hs]
    | some z => simp [boundShapeSpec] at hn
  | undef => simp [get, hs]
  | null => simp [get, hs]
  | str a => simp [get, hs]
  | int a => simp [get, hs]
  | bool a => simp [get, hs]

/-- On a plain slot that does not masquerade as a descriptor, `set` takes
the plain branch: no-op when the value is unchanged (whatever
`forceCallback` is), else write the slot and invoke the owner's own
callback if defined. -/
theorem set_plain_eq (s : State) (oid : Nat) (key : String) (v value : Val) (force : Bool)
    (hs : getSlot s oid key = some (Slot.plain v))
    (hn : boundShapeSpec (some (Slot.plain v)) = false) :
    set s oid key value force =
      if v.jsEq value then ⟨s, [], none⟩
      else ⟨setSlot s oid key (Slot.plain value),
            if hasCallback s oid key then [⟨oid, key, none⟩] else [], none⟩ := by
  cases v with
  | obj a m =>
    cases m with
    | none => simp [set, hs]
    | some z => simp [boundShapeSpec] at hn
  | undef => simp [set, hs]
  | null => simp [set, hs]
  | str a => simp [set, hs]
  | int a => simp [set, hs]
  | bool a => simp [set, hs]

/-- C5 (recording the code's actual behavior): even with `noNotify = true`,
the first bind of a fresh plain source into a target whose value differs
still invokes the newly joined source's `nameChanged` callback.  The
JSDoc of kvo.js documents `noNotify` as "do not call Changed callback upon
binding", but the guard `i === targetObserversLength` on line 163 strictly
compares the for-in string key with a number and never holds. -/
theorem claim_C5_noNotify_ineffective :
    get stNoNotify 0 "name" = Except.ok (Val.str "Bob") ∧
    get stNoNotify 1 "name" = Except.ok (Val.str "X") ∧
    (Val.str "Bob").jsEq (Val.str "X") = false ∧
    hasCallback stNoNotify 1 "name" = true ∧
    (bindTo 10 stNoNotify 1 "name" 0 none true).err = none ∧
    (bindTo 10 stNoNotify 1 "name" 0 none true).notifs = [⟨1, "name", none⟩] :=
  ⟨by rfl, by rfl, by decide, by decide, by decide, by decide⟩

/-- C10: the classification of a slot as bound is purely structural - it
agrees with `boundShapeSpec` (non-null object value carrying `__myIndex`)
on every state - and consequently the ordinary object value `wMis`, stored
by `set` into a never-bound plain slot, is afterwards classified as bound:
`get` throws instead of returning it, a further `set` takes the descriptor
branch and throws, and `bindTo` with that slot as target treats it as a
descriptor and throws. -/
theorem claim_C10_structural_classification :
    (∀ s oid key, isPropertyBound s oid key = boundShapeSpec (getSlot s oid key)) ∧
    ((set stMis 0 "k" wMis false).err = none ∧
     getSlot (set stMis 0 "k" wMis false).state 0 "k" = some (Slot.plain wMis) ∧
     isPropertyBound (set stMis 0 "k" wMis false).state 0 "k" = true ∧
     get (set stMis 0 "k" wMis false).state 0 "k" = Except.error JsErr.typeError ∧
     set (set stMis 0 "k" wMis false).state 0 "k" (Val.str "b") false =
       ⟨(set stMis 0 "k" wMis false).state, [], some JsErr.typeError⟩ ∧
     bindTo 5 (set stMis 0 "k" wMis false).state 1 "k" 0 none false =
       ⟨(set stMis 0 "k" wMis false).state, [], some JsErr.typeError⟩) :=
  ⟨isPropertyBound_eq,
   by decide, by decide, by decide, by rfl, by decide, by decide⟩

/-- C8 is refuted as universally stated: `get` can fail.  Storing an
ordinary object that carries a `__myIndex` property into a never-bound
plain slot succeeds, and `get` on that slot then throws a TypeError
instead of returning the raw slot value. -/
theorem claim_C8_counterexample :
    (set stMis 0 "k" wMis false).err = none ∧
    get (set stMis 0 "k" wMis false).state 0 "k" = Except.error JsErr.typeError :=
  ⟨by decide, by rfl⟩

/-- C8 amended: provided the slot does not structurally masquerade as a
descriptor (and any descriptor has its cell set), `get` never fails and
returns the cell's value when bound, the raw value when plain, and
`undefined` when the key is absent.  `get` is a pure function of the
state, so it has no side effects by construction. -/
theorem claim_C8_amended (s : State) (oid : Nat) (key : String)
    (h : slotReadable s oid key = true) :
    (∃ v2, get s oid key = Except.ok v2) ∧
    (∀ d cid, getSlot s oid key = some (Slot.desc d) → d.sharedObject = some cid →
      get s oid key = Except.ok (getCell s cid).value) ∧
    (∀ v, getSlot s oid key = some (Slot.plain v) → get s oid key = Except.ok v) ∧
    (getSlot s oid key = none → get s oid key = Except.ok Val.undef) := by
  match hs : getSlot s oid key with
  | none =>
    exact ⟨⟨Val.undef, by simp [get, hs]⟩,
      fun d cid h1 => by simp at h1,
      fun v h1 => by simp at h1,
      fun _ => by simp [get, hs]⟩
  | some (Slot.desc d) =>
    match hd : d.sharedObject with
    | none => simp [slotReadable, hs, hd] at h
    | some cid =>
      refine ⟨⟨(getCell s cid).value, by simp [get, hs, hd]⟩, ?_, ?_, ?_⟩
      · intro d2 cid2 h1 h2
        have hd2 : d = d2 := by simpa using h1
        subst hd2
        rw [hd] at h2
        have hc2 : cid = cid2 := by simpa using h2
        subst hc2
        simp [get, hs, hd]
      · intro v h1
        simp at h1
      · intro h1
        simp at h1
  | some (Slot.plain v) =>
    have hn : boundShapeSpec (some (Slot.plain v)) = false := by
      simp [slotReadable, hs] at h
      exact h
    refine ⟨⟨v, get_plain_eq s oid key v hs hn⟩, ?_, ?_, ?_⟩
    · intro d cid h1 _
      simp at h1
    · intro v2 h1
      have hv2 : v = v2 := by simpa using h1
      subst hv2
      exact get_plain_eq s oid key v hs hn
    · intro h1
      simp at h1

/-- Witness for C8 (amended) at a concrete input. -/
theorem claim_C8_witness :
    slotReadable stChain 0 "k" = true ∧
    ((∃ v2, get stChain 0 "k" = Except.ok v2) ∧
     (∀ d cid, getSlot stChain 0 "k" = some (Slot.desc d) → d.sharedObject = some cid →
       get stChain 0 "k" = Except.ok (getCell stChain cid).value) ∧
     (∀ v, getSlot stChain 0 "k" = some (Slot.plain v) → get stChain 0 "k" = Except.ok v) ∧
     (getSlot stChain 0 "k" = none → get stChain 0 "k" = Except.ok Val.undef)) :=
  ⟨by decide, claim_C8_amended stChain 0 "k" (by decide)⟩

/-- C7 is refuted as stated for plain attributes: with `forceCallback`
set and an unchanged value, `set` on a plain attribute with a defined
`kChanged` callback makes no callback invocation at all, because the plain
branch of kvo.js (line 226) never consults `forceCallback`. -/
theorem claim_C7_counterexample :
    hasCallback stPlainCb 0 "k" = true ∧
    get stPlainCb 0 "k" = Except.ok (Val.str "a") ∧
    set stPlainCb 0 "k" (Val.str "a") true = ⟨stPlainCb, [], none⟩ :=
  ⟨by decide, by rfl, by decide⟩

/-- C7 amended: `Set` with `forceCallback` and an unchanged value still
invokes every live observer's `Changed` callback exactly once when the
attribute is bound; when the attribute is plain, `forceCallback` is
ignored and the unchanged-value call is a no-op. -/
theorem claim_C7_amended (s : State) (oid : Nat) (key : String) (v : Val) :
    (∀ d cid, getSlot s oid key = some (Slot.desc d) → d.sharedObject = some cid →
      ((getCell s cid).observers.filterMap id).Nodup →
      (set s oid key v true).err = none ∧
      (∀ e, some e ∈ (getCell s cid).observers →
        (set s oid key v true).notifs.count ⟨e.obj, e.key, some v⟩ =
          if hasCallback s e.obj e.key then 1 else 0)) ∧
    (∀ v0, getSlot s oid key = some (Slot.plain v0) →
      boundShapeSpec (some (Slot.plain v0)) = false →
      v0.jsEq v = true → set s oid key v true = ⟨s, [], none⟩) := by
  constructor
  · intro d cid hs hcid hnd
    rw [set_bound_eq s oid key v true d cid hs hcid (Or.inr rfl)]
    exact ⟨rfl, fun e he => count_notifOf s v _ e hnd he⟩
  · intro v0 hs hshape heq
    rw [set_plain_eq s oid key v0 v true hs hshape]
    simp [heq]

/-- Witness for C7 (amended) at concrete inputs, one per branch. -/
theorem claim_C7_witness :
    ((set stChain 1 "k" (Val.str "old") true).err = none ∧
     (∀ e, some e ∈ (getCell stChain 0).observers →
       (set stChain 1 "k" (Val.str "old") true).notifs.count ⟨e.obj, e.key, some (Val.str "old")⟩ =
         if hasCallback stChain e.obj e.key then 1 else 0)) ∧
    set stPlainCb 0 "k" (Val.str "a") true = ⟨stPlainCb, [], none⟩ :=
  ⟨(claim_C7_amended stChain 1 "k" (Val.str "old")).1 ⟨1, [2], some 0⟩ 0
     (by decide) (by decide) (by decide),
   (claim_C7_amended stPlainCb 0 "k" (Val.str "a")).2 (Val.str "a")
     (by decide) (by decide) (by decide)⟩

/-- C1: on a bound attribute, `Set` with a strictly different value
succeeds, updates the shared cell's value, makes `Get` on every member of
the cell return the new value, and invokes the `Changed` callback with the
new value as argument exactly once on every live table entry whose owner
defines one (and on no one else). -/
theorem claim_C1_set_fanout (s : State) (oid : Nat) (key : String) (v : Val) (d : Desc) (cid : Nat)
    (hs : getSlot s oid key = some (Slot.desc d))
    (hcid : d.sharedObject = some cid)
    (hlt : cid < s.cells.length)
    (hch : (getCell s cid).value.jsEq v = false)
    (hnd : ((getCell s cid).observers.filterMap id).Nodup) :
    (set s oid key v false).err = none ∧
    (getCell (set s oid key v false).state cid).value = v ∧
    (∀ o k d2, getSlot s o k = some (Slot.desc d2) → d2.sharedObject = some cid →
      get (set s oid key v false).state o k = Except.ok v) ∧
    (∀ e, some e ∈ (getCell s cid).observers →
      (set s oid key v false).notifs.count ⟨e.obj, e.key, some v⟩ =
        if hasCallback s e.obj e.key then 1 else 0) ∧
    (∀ nf, nf ∈ (set s oid key v false).notifs →
      nf.arg = some v ∧ some (⟨nf.obj, nf.key⟩ : Entry) ∈ (getCell s cid).observers ∧
      hasCallback s nf.obj nf.key = true) := by
  rw [set_bound_eq s oid key v false d cid hs hcid (Or.inl hch)]
  refine ⟨rfl, ?_, ?_, ?_, ?_⟩
  · simp [getCell_setCell_self s cid _ hlt]
  · intro o k d2 h1 h2
    simp [get, getSlot_setCell, h1, h2, getCell_setCell_self s cid _ hlt]
  · intro e he
    exact count_notifOf s v _ e hnd he
  · intro nf h
    exact mem_notifOf s v _ nf h

/-- Witness for C1 at a concrete input: the three-member chain. -/
theorem claim_C1_witness :
    getSlot stChain 1 "k" = some (Slot.desc ⟨1, [2], some 0⟩) ∧
    (0 : Nat) < stChain.cells.length ∧
    (getCell stChain 0).value.jsEq (Val.str "new") = false ∧
    ((getCell stChain 0).observers.filterMap id).Nodup ∧
    ((set stChain 1 "k" (Val.str "new") false).err = none ∧
     (getCell (set stChain 1 "k" (Val.str "new") false).state 0).value = Val.str "new" ∧
     (∀ o k d2, getSlot stChain o k = some (Slot.desc d2) → d2.sharedObject = some 0 →
       get (set stChain 1 "k" (Val.str "new") false).state o k = Except.ok (Val.str "new")) ∧
     (∀ e, some e ∈ (getCell stChain 0).observers →
       (set stChain 1 "k" (Val.str "new") false).notifs.count ⟨e.obj, e.key, some (Val.str "new")⟩ =
         if hasCallback stChain e.obj e.key then 1 else 0) ∧
     (∀ nf, nf ∈ (set stChain 1 "k" (Val.str "new") false).notifs →
       nf.arg = some (Val.str "new") ∧
       some (⟨nf.obj, nf.key⟩ : Entry) ∈ (getCell stChain 0).observers ∧
       hasCallback stChain nf.obj nf.key = true)) :=
  ⟨by decide, by decide, by decide, by decide,
   claim_C1_set_fanout stChain 1 "k" (Val.str "new") ⟨1, [2], some 0⟩ 0
     (by decide) (by decide) (by decide) (by decide) (by decide)⟩

/-- C4 is refuted as universally stated: when X (object 1, a non-root
member of P's group) is bound into the plain attribute of Q (object 2),
the call does fail with the AlreadySourced throw, but mutation has already
happened: Q's slot has been promoted to a descriptor (with a dangling
proxy index) on a freshly created cell. -/
theorem claim_C4_counterexample :
    (bindTo 10 stAlready 1 "k" 2 none false).err = some JsErr.alreadyBound ∧
    (bindTo 10 stAlready 1 "k" 2 none false).state ≠ stAlready ∧
    getSlot stAlready 2 "k" = some (Slot.plain (Val.str "q")) ∧
    getSlot (bindTo 10 stAlready 1 "k" 2 none false).state 2 "k" =
      some (Slot.desc ⟨0, [1], some 1⟩) :=
  ⟨by decide, by decide, by decide, by decide⟩

/-- C4 amended: a bind whose source descriptor has a nonzero `selfIndex`
fails with the AlreadySourced error and no callback fires; every slot
other than the target's, and every pre-existing cell (in particular all
values and observer tables), is unchanged - but the target's slot itself
has already been mutated (promoted if plain, and its proxy-index list
extended by the dangling index). -/
theorem claim_C4_amended (fuel : Nat) (s : State) (selfId : Nat) (key : String)
    (targetId : Nat) (tkOpt : Option String) (noNotify : Bool) (dS : Desc) (tk : String)
    (htk : tk = tkOpt.getD key)
    (hsrc : getSlot s selfId key = some (Slot.desc dS))
    (hnz : dS.myIndex ≠ 0)
    (hne : ¬ (selfId = targetId ∧ key = tk))
    (htgt : targetBindable s targetId tk = true) :
    (bindTo fuel s selfId key targetId tkOpt noNotify).err = some JsErr.alreadyBound ∧
    (bindTo fuel s selfId key targetId tkOpt noNotify).notifs = [] ∧
    (∀ o k, ¬ (o = targetId ∧ k = tk) →
      getSlot (bindTo fuel s selfId key targetId tkOpt noNotify).state o k = getSlot s o k) ∧
    (∀ cid, cid < s.cells.length →
      getCell (bindTo fuel s selfId key targetId tkOpt noNotify).state cid = getCell s cid) ∧
    getSlot (bindTo fuel s selfId key targetId tkOpt noNotify).state targetId tk ≠
      getSlot s targetId tk := by
  subst htk
  match hs_t : getSlot s targetId (tkOpt.getD key) with
  | none => rw [targetBindable, hs_t] at htgt; simp at htgt
  | some (Slot.plain v) =>
    have hshape : boundShapeSpec (some (Slot.plain v)) = false := by
      rw [targetBindable, hs_t] at htgt
      simpa using htgt
    have hpb : isPropertyBound s targetId (tkOpt.getD key) = false := by
      rw [isPropertyBound_eq, hs_t, hshape]
    have hlt : targetId < s.objs.length := getSlot_some_lt hs_t
    have hprom := promoteTarget_plain s targetId (tkOpt.getD key) hpb
    have hdT : getSlot (promoteTarget s targetId (tkOpt.getD key)) targetId (tkOpt.getD key) =
        some (Slot.desc ⟨0, [], some s.cells.length⟩) := by
      rw [hprom]
      exact getSlot_setSlot_self _ _ _ _ hlt
    have hstep := bindTo_eq_bindSource fuel s selfId key targetId tkOpt noNotify
      (Slot.plain v) ⟨0, [], some s.cells.length⟩ s.cells.length hs_t hdT rfl
    have hsrc2 : getSlot
        (setSlot (promoteTarget s targetId (tkOpt.getD key)) targetId (tkOpt.getD key)
          (Slot.desc { (⟨0, [], some s.cells.length⟩ : Desc) with observerIndexes :=
            (⟨0, [], some s.cells.length⟩ : Desc).observerIndexes ++
            [(getCell (promoteTarget s targetId (tkOpt.getD key)) s.cells.length).observers.length] }))
        selfId key = some (Slot.desc dS) := by
      rw [getSlot_setSlot_ne _ _ _ _ _ _ hne, hprom, getSlot_setSlot_ne _ _ _ _ _ _ hne]
      exact hsrc
    have hmain : bindTo fuel s selfId key targetId tkOpt noNotify =
        ⟨setSlot (promoteTarget s targetId (tkOpt.getD key)) targetId (tkOpt.getD key)
          (Slot.desc { (⟨0, [], some s.cells.length⟩ : Desc) with observerIndexes :=
            (⟨0, [], some s.cells.length⟩ : Desc).observerIndexes ++
            [(getCell (promoteTarget s targetId (tkOpt.getD key)) s.cells.length).observers.length] }),
         [], some JsErr.alreadyBound⟩ := by
      rw [hstep]
      exact bindSource_alreadyBound fuel _ selfId key targetId _ _ noNotify dS hsrc2 hnz
    rw [hmain]
    refine ⟨rfl, rfl, ?_, ?_, ?_⟩
    · intro o k hok
      rw [getSlot_setSlot_ne _ _ _ _ _ _ hok, hprom, getSlot_setSlot_ne _ _ _ _ _ _ hok]
      rfl
    · intro cid hcid
      rw [getCell_setSlot, hprom, getCell_setSlot]
      exact getCell_append s _ cid hcid
    · have hlt2 : targetId < (promoteTarget s targetId (tkOpt.getD key)).objs.length := by
        rw [hprom, objs_length_setSlot]
        exact hlt
      rw [getSlot_setSlot_self _ _ _ _ hlt2]
      simp
  | some (Slot.desc dT) =>
    have hiso : dT.sharedObject.isSome = true := by
      rw [targetBindable, hs_t] at htgt
      exact htgt
    rcases Option.isSome_iff_exists.mp hiso with ⟨ct, hso⟩
    have hpb : isPropertyBound s targetId (tkOpt.getD key) = true := by
      simp [isPropertyBound, hs_t]
    have hlt : targetId < s.objs.length := getSlot_some_lt hs_t
    have hprom := promoteTarget_bound s targetId (tkOpt.getD key) hpb
    have hdT : getSlot (promoteTarget s targetId (tkOpt.getD key)) targetId (tkOpt.getD key) =
        some (Slot.desc dT) := by
      rw [hprom]
      exact hs_t
    have hstep := bindTo_eq_bindSource fuel s selfId key targetId tkOpt noNotify
      (Slot.desc dT) dT ct hs_t hdT hso
    have hsrc2 : getSlot
        (setSlot (promoteTarget s targetId (tkOpt.getD key)) targetId (tkOpt.getD key)
          (Slot.desc { dT with observerIndexes := dT.observerIndexes ++
            [(getCell (promoteTarget s targetId (tkOpt.getD key)) ct).observers.length] }))
        selfId key = some (Slot.desc dS) := by
      rw [getSlot_setSlot_ne _ _ _ _ _ _ hne, hprom]
      exact hsrc
    have hmain : bindTo fuel s selfId key targetId tkOpt noNotify =
        ⟨setSlot (promoteTarget s targetId (tkOpt.getD key)) targetId (tkOpt.getD key)
          (Slot.desc { dT with observerIndexes := dT.observerIndexes ++
            [(getCell (promoteTarget s targetId (tkOpt.getD key)) ct).observers.length] }),
         [], some JsErr.alreadyBound⟩ := by
      rw [hstep]
      exact bindSource_alreadyBound fuel _ selfId key targetId _ _ noNotify dS hsrc2 hnz
    rw [hmain]
    refine ⟨rfl, rfl, ?_, ?_, ?_⟩
    · intro o k hok
      rw [getSlot_setSlot_ne _ _ _ _ _ _ hok, hprom]
    · intro cid hcid
      rw [getCell_setSlot, hprom]
    · have hlt2 : targetId < (promoteTarget s targetId (tkOpt.getD key)).objs.length := by
        rw [hprom]
        exact hlt
      rw [getSlot_setSlot_self _ _ _ _ hlt2, hprom]
      intro heq
      have h3 : ({ dT with observerIndexes := dT.observerIndexes ++
          [(getCell s ct).observers.length] } : Desc) = dT := by
        simpa using heq
      have h4 := congrArg Desc.observerIndexes h3
      simp at h4

/-- Witness for C4 (amended) at the concrete AlreadySourced scenario. -/
theorem claim_C4_witness :
    getSlot stAlready 1 "k" = some (Slot.desc ⟨1, [], some 0⟩) ∧
    targetBindable stAlready 2 "k" = true ∧
    ((bindTo 10 stAlready 1 "k" 2 none false).err = some JsErr.alreadyBound ∧
     (bindTo 10 stAlready 1 "k" 2 none false).notifs = [] ∧
     (∀ o k, ¬ (o = 2 ∧ k = "k") →
       getSlot (bindTo 10 stAlready 1 "k" 2 none false).state o k = getSlot stAlready o k) ∧
     (∀ cid, cid < stAlready.cells.length →
       getCell (bindTo 10 stAlready 1 "k" 2 none false).state cid = getCell stAlready cid) ∧
     getSlot (bindTo 10 stAlready 1 "k" 2 none false).state 2 "k" ≠
       getSlot stAlready 2 "k") :=
  ⟨by decide, by decide,
   claim_C4_amended 10 stAlready 1 "k" 2 none false ⟨1, [], some 0⟩ "k"
     rfl (by decide) (by decide) (by decide) (by decide)⟩

/-! ### List and cell helpers for the traversal proof -/

theorem getElem?_append_cons (pre : List Nat) (a : Nat) (l : List Nat) :
    (pre ++ a :: l)[pre.length]? = some a := by
  rw [List.getElem?_append_right (Nat.le_refl _)]
  simp

theorem set_append_cons (pre : List Nat) (a b : Nat) (l : List Nat) :
    (pre ++ a :: l).set pre.length b = pre ++ b :: l := by
  induction pre with
  | nil => simp
  | cons x xs ih => simp [List.set, ih]

theorem getCell_eq_of_cells {s s2 : State} (h : s2.cells = s.cells) (cid : Nat) :
    getCell s2 cid = getCell s cid := by
  simp [getCell, h]

theorem obsAt_eq_of_cells {s s2 : State} (h : s2.cells = s.cells) (cid i : Nat) :
    obsAt s2 cid i = obsAt s cid i := by
  simp [obsAt, getCell_eq_of_cells h]

theorem entryAt_eq_of_cells {s s2 : State} (h : s2.cells = s.cells) (cid i : Nat) :
    entryAt s2 cid i = entryAt s cid i := by
  simp [entryAt, obsAt_eq_of_cells h]

theorem entryAt_of_obsAt {s : State} {cid i : Nat} {e : Entry}
    (h : obsAt s cid i = some (some e)) : entryAt s cid i = some e := by
  simp [entryAt, h]

theorem ne_pair_of_entry_ne {e : Entry} {o : Nat} {k : String} (h : e ≠ ⟨o, k⟩) :
    ¬(e.obj = o ∧ e.key = k) := by
  rintro ⟨h1, h2⟩
  apply h
  cases e
  simp at h1 h2
  simp [h1, h2]

theorem ne_pair_of_entry_ne2 {e : Entry} {o : Nat} {k : String} (h : e ≠ ⟨o, k⟩) :
    ¬(o = e.obj ∧ k = e.key) := by
  rintro ⟨h1, h2⟩
  apply h
  cases e
  simp at h1 h2
  simp [h1, h2]

theorem hasCallback_eq_of_callbacks {s s2 : State}
    (h : ∀ o, (getObj s2 o).callbacks = (getObj s o).callbacks) (o : Nat) (k : String) :
    hasCallback s2 o k = hasCallback s o k := by
  simp [hasCallback, h]

/-! ### Extraction, stability and bookkeeping for proxy trees -/

mutual

theorem ptMatch_elim (s : State) (cid : Nat) (t : PT) (hm : ptMatch s cid t = true) :
    ∀ j ∈ liveIdxPT t, ∃ e d, obsAt s cid j = some (some e) ∧
      getSlot s e.obj e.key = some (Slot.desc d) ∧ d.myIndex = j ∧ d.sharedObject = some cid := by
  cases t with
  | dead i =>
    intro j hj
    simp [liveIdxPT] at hj
  | node i cs =>
    intro j hj
    rw [liveIdxPT] at hj
    unfold ptMatch at hm
    split at hm
    next e ho =>
      split at hm
      next d hsl =>
        simp only [Bool.and_eq_true, beq_iff_eq] at hm
        obtain ⟨⟨⟨h1, h2⟩, h3⟩, h4⟩ := hm
        rcases List.mem_cons.mp hj with hji | hjs
        · subst hji
          exact ⟨e, d, ho, hsl, h1, h2⟩
        · exact plMatch_elim s cid cs h4 j hjs
      next => simp at hm
    next => simp at hm

theorem plMatch_elim (s : State) (cid : Nat) (l : PL) (hm : plMatch s cid l = true) :
    ∀ j ∈ liveIdxPL l, ∃ e d, obsAt s cid j = some (some e) ∧
      getSlot s e.obj e.key = some (Slot.desc d) ∧ d.myIndex = j ∧ d.sharedObject = some cid := by
  cases l with
  | nil =>
    intro j hj
    simp [liveIdxPL] at hj
  | cons c rest =>
    intro j hj
    rw [liveIdxPL] at hj
    rw [plMatch, Bool.and_eq_true] at hm
    rcases List.mem_append.mp hj with hjc | hjr
    · exact ptMatch_elim s cid c hm.1 j hjc
    · exact plMatch_elim s cid rest hm.2 j hjr

end

mutual

theorem liveIdxPT_subset (t : PT) : ∀ j ∈ liveIdxPT t, j ∈ allIdxPT t := by
  cases t with
  | dead i =>
    intro j hj
    simp [liveIdxPT] at hj
  | node i cs =>
    intro j hj
    rw [liveIdxPT] at hj
    rw [allIdxPT]
    rcases List.mem_cons.mp hj with hji | hjs
    · simp [hji]
    · exact List.mem_cons_of_mem _ (liveIdxPL_subset cs j hjs)

theorem liveIdxPL_subset (l : PL) : ∀ j ∈ liveIdxPL l, j ∈ allIdxPL l := by
  cases l with
  | nil =>
    intro j hj
    simp [liveIdxPL] at hj
  | cons c rest =>
    intro j hj
    rw [liveIdxPL] at hj
    rw [allIdxPL]
    rcases List.mem_append.mp hj with hjc | hjr
    · exact List.mem_append_left _ (liveIdxPT_subset c j hjc)
    · exact List.mem_append_right _ (liveIdxPL_subset rest j hjr)

end

mutual

theorem ptMatch_stable (s s2 : State) (cid : Nat) (t : PT)
    (hm : ptMatch s cid t = true)
    (hobs : ∀ j ∈ allIdxPT t, obsAt s2 cid j = obsAt s cid j)
    (hslots : ∀ j ∈ liveIdxPT t, ∀ e, obsAt s cid j = some (some e) →
      getSlot s2 e.obj e.key = getSlot s e.obj e.key) :
    ptMatch s2 cid t = true := by
  cases t with
  | dead i =>
    unfold ptMatch at hm ⊢
    rw [hobs i (by simp [allIdxPT])]
    split at hm
    next ho => rfl
    next => simp at hm
  | node i cs =>
    unfold ptMatch at hm ⊢
    rw [hobs i (by simp [allIdxPT])]
    split at hm
    next e ho =>
      split at hm
      next d hsl =>
        simp only [Bool.and_eq_true, beq_iff_eq] at hm
        obtain ⟨⟨⟨h1, h2⟩, h3⟩, h4⟩ := hm
        simp only [hslots i (by simp [liveIdxPT]) e ho, hsl]
        simp only [Bool.and_eq_true, beq_iff_eq]
        refine ⟨⟨⟨h1, h2⟩, h3⟩, ?_⟩
        refine plMatch_stable s s2 cid cs h4 ?_ ?_
        · intro j hj
          exact hobs j (by rw [allIdxPT]; exact List.mem_cons_of_mem _ hj)
        · intro j hj e2 he2
          exact hslots j (by rw [liveIdxPT]; exact List.mem_cons_of_mem _ hj) e2 he2
      next => simp at hm
    next => simp at hm

theorem plMatch_stable (s s2 : State) (cid : Nat) (l : PL)
    (hm : plMatch s cid l = true)
    (hobs : ∀ j ∈ allIdxPL l, obsAt s2 cid j = obsAt s cid j)
    (hslots : ∀ j ∈ liveIdxPL l, ∀ e, obsAt s cid j = some (some e) →
      getSlot s2 e.obj e.key = getSlot s e.obj e.key) :
    plMatch s2 cid l = true := by
  cases l with
  | nil => rw [plMatch]
  | cons c rest =>
    rw [plMatch, Bool.and_eq_true] at hm
    rw [plMatch, Bool.and_eq_true]
    constructor
    · refine ptMatch_stable s s2 cid c hm.1 ?_ ?_
      · intro j hj
        exact hobs j (by rw [allIdxPL]; exact List.mem_append_left _ hj)
      · intro j hj e2 he2
        exact hslots j (by rw [liveIdxPL]; exact List.mem_append_left _ hj) e2 he2
    · refine plMatch_stable s s2 cid rest hm.2 ?_ ?_
      · intro j hj
        exact hobs j (by rw [allIdxPL]; exact List.mem_append_right _ hj)
      · intro j hj e2 he2
        exact hslots j (by rw [liveIdxPL]; exact List.mem_append_right _ hj) e2 he2

end

theorem plRoots_length : (l : PL) → (plRoots l).length = plLen l
  | PL.nil => rfl
  | PL.cons c rest => by simp [plRoots, plLen, plRoots_length rest]

theorem mem_liveEntries_iff {s : State} {cid : Nat} {idxs : List Nat} {e : Entry} :
    e ∈ liveEntries s cid idxs ↔ ∃ i ∈ idxs, entryAt s cid i = some e := by
  simp [liveEntries, List.mem_filterMap]

theorem not_mem_liveEntries {s : State} {cid : Nat} {idxs : List Nat} {o : Nat} {k : String}
    (h : ∀ j ∈ idxs, entryAt s cid j ≠ some ⟨o, k⟩) :
    (⟨o, k⟩ : Entry) ∉ liveEntries s cid idxs := by
  intro hmem
  rcases mem_liveEntries_iff.mp hmem with ⟨i, hi, he⟩
  exact h i hi he

theorem liveEntries_eq_of_cells {s s2 : State} (h : s2.cells = s.cells) (cid : Nat)
    (idxs : List Nat) : liveEntries s2 cid idxs = liveEntries s cid idxs := by
  unfold liveEntries
  congr 1
  funext i
  exact entryAt_eq_of_cells h cid i

theorem untouched_refl (s : State) (t : List Entry) : UntouchedOutside s s t :=
  ⟨rfl, rfl, fun _ => rfl, fun _ _ _ => rfl⟩

theorem untouched_comp {s s1 s2 : State} {t1 t2 t3 : List Entry}
    (h1 : UntouchedOutside s s1 t1) (h2 : UntouchedOutside s1 s2 t2)
    (hs1 : ∀ e ∈ t1, e ∈ t3) (hs2 : ∀ e ∈ t2, e ∈ t3) :
    UntouchedOutside s s2 t3 := by
  obtain ⟨c1, l1, cb1, sl1⟩ := h1
  obtain ⟨c2, l2, cb2, sl2⟩ := h2
  refine ⟨c2.trans c1, l2.trans l1, fun o => (cb2 o).trans (cb1 o), ?_⟩
  intro o k hok
  rw [sl2 o k (fun hmem => hok (hs2 _ hmem)), sl1 o k (fun hmem => hok (hs1 _ hmem))]

theorem untouched_setSlot (s : State) (oid : Nat) (key : String) (sl : Slot) :
    UntouchedOutside s (setSlot s oid key sl) [⟨oid, key⟩] := by
  refine ⟨rfl, objs_length_setSlot s oid key sl, fun o => callbacks_setSlot s oid key sl o, ?_⟩
  intro o k hok
  apply getSlot_setSlot_ne
  rintro ⟨h1, h2⟩
  apply hok
  simp [h1, h2]

theorem live_entry_ne {s : State} {i j : Nat} {ei ej : Entry} {di dj : Desc}
    (hsi : getSlot s ei.obj ei.key = some (Slot.desc di)) (hmi : di.myIndex = i)
    (hsj : getSlot s ej.obj ej.key = some (Slot.desc dj)) (hmj : dj.myIndex = j)
    (hij : i ≠ j) : ei ≠ ej := by
  intro he
  subst he
  rw [hsi] at hsj
  have hd : di = dj := by simpa using hsj
  subst hd
  rw [hmi] at hmj
  exact hij hmj

/-! ### Unfolding equations for `updObs` and `updLoop` -/

theorem updObs_succ_desc (f : Nat) (s : State) (oid : Nat) (key : String) (off : Nat) (d : Desc)
    (h : getSlot s oid key = some (Slot.desc d)) :
    updObs (f + 1) s oid key off =
      updLoop f (setSlot s oid key (Slot.desc { d with myIndex := d.myIndex + off }))
        oid key off 0 d.observerIndexes.length := by
  simp only [updObs, h]

theorem updLoop_zero (f : Nat) (s : State) (oid : Nat) (key : String) (off i : Nat) :
    updLoop (f + 1) s oid key off i 0 = (s, none) := by
  simp only [updLoop]

theorem updLoop_succ_dead (f : Nat) (s : State) (oid : Nat) (key : String)
    (off i rem1 cid j : Nat) (d : Desc)
    (hs : getSlot s oid key = some (Slot.desc d))
    (hj : d.observerIndexes[i]? = some j)
    (hcid : d.sharedObject = some cid)
    (hdead : obsAt s cid j = some none) :
    updLoop (f + 1) s oid key off i (rem1 + 1) =
      updLoop f
        (setSlot s oid key (Slot.desc { d with observerIndexes := d.observerIndexes.set i (j + off) }))
        oid key off (i + 1) rem1 := by
  simp only [updLoop, hs, hj, hcid, hdead]

theorem updLoop_succ_live (f : Nat) (s s1 : State) (oid : Nat) (key : String)
    (off i rem1 cid j j1 : Nat) (d d1 : Desc) (e : Entry)
    (hs : getSlot s oid key = some (Slot.desc d))
    (hj : d.observerIndexes[i]? = some j)
    (hcid : d.sharedObject = some cid)
    (hlive : obsAt s cid j = some (some e))
    (hrun : updObs f s e.obj e.key off = (s1, none))
    (hs1 : getSlot s1 oid key = some (Slot.desc d1))
    (hj1 : d1.observerIndexes[i]? = some j1) :
    updLoop (f + 1) s oid key off i (rem1 + 1) =
      updLoop f
        (setSlot s1 oid key (Slot.desc { d1 with observerIndexes := d1.observerIndexes.set i (j1 + off) }))
        oid key off (i + 1) rem1 := by
  simp only [updLoop, hs, hj, hcid, hlive, hrun, hs1, hj1]

/-! ### Correctness of the `_updateObserverIndexes` traversal

On a well-described source group (a matching proxy tree with distinct
positions, rooted at the attribute the call starts from), the traversal
terminates without error, adds the offset to the `__myIndex` and to every
`__observerIndexes` element of every live member of the tree, and touches
nothing else. -/

set_option maxHeartbeats 1600000

mutual

theorem updObs_ok (i0 : Nat) (cs : PL) (fuel : Nat) (s : State) (cid oid : Nat) (key : String)
    (off : Nat)
    (hm : ptMatch s cid (PT.node i0 cs) = true)
    (hroot : obsAt s cid i0 = some (some ⟨oid, key⟩))
    (hnd : (allIdxPT (PT.node i0 cs)).Nodup)
    (hfuel : wtPT (PT.node i0 cs) ≤ fuel) :
    ∃ s2, updObs fuel s oid key off = (s2, none) ∧
      ShiftedAt s s2 cid off (liveIdxPT (PT.node i0 cs)) ∧
      UntouchedOutside s s2 (liveEntries s cid (liveIdxPT (PT.node i0 cs))) := by
  unfold ptMatch at hm
  split at hm
  next e ho =>
    have he : e = ⟨oid, key⟩ := by
      rw [ho] at hroot
      simpa using hroot
    subst he
    split at hm
    next d hsl =>
      have hsl2 : getSlot s oid key = some (Slot.desc d) := hsl
      simp only [Bool.and_eq_true, beq_iff_eq] at hm
      obtain ⟨⟨⟨h1, h2⟩, h3⟩, h4⟩ := hm
      rw [wtPT] at hfuel
      obtain ⟨f, rfl⟩ : ∃ f, fuel = f + 1 := ⟨fuel - 1, by omega⟩
      have hf2 : wtPL cs < f := by omega
      have hlt : oid < s.objs.length := getSlot_some_lt hsl2
      have hunf := updObs_succ_desc f s oid key off d hsl2
      have hslot1 : getSlot (setSlot s oid key (Slot.desc { d with myIndex := d.myIndex + off }))
          oid key = some (Slot.desc { d with myIndex := d.myIndex + off }) :=
        getSlot_setSlot_self _ _ _ _ hlt
      have hnd2 : (i0 :: allIdxPL cs).Nodup := by simpa [allIdxPT] using hnd
      have hndcs : (allIdxPL cs).Nodup := (List.nodup_cons.mp hnd2).2
      have hi0notin : i0 ∉ allIdxPL cs := (List.nodup_cons.mp hnd2).1
      have hrootlive : ∀ j ∈ liveIdxPL cs, entryAt s cid j ≠ some ⟨oid, key⟩ := by
        intro j hj heq
        obtain ⟨e2, d2, ho2, hsl3, hmy2, hsh2⟩ := plMatch_elim s cid cs h4 j hj
        rw [entryAt_of_obsAt ho2] at heq
        have he2 : e2 = ⟨oid, key⟩ := by simpa using heq
        subst he2
        have hsl4 : getSlot s oid key = some (Slot.desc d2) := hsl3
        rw [hsl2] at hsl4
        have hd2 : d = d2 := by simpa using hsl4
        apply hi0notin
        have hji : j = i0 := by rw [← hmy2, ← hd2, h1]
        rw [← hji]
        exact liveIdxPL_subset cs j hj
      have hm1 : plMatch (setSlot s oid key (Slot.desc { d with myIndex := d.myIndex + off }))
          cid cs = true := by
        refine plMatch_stable s _ cid cs h4 (fun j hj => rfl) ?_
        intro j hj e2 he2
        apply getSlot_setSlot_ne
        apply ne_pair_of_entry_ne
        intro hcontra
        exact hrootlive j hj (by rw [entryAt_of_obsAt he2, hcontra])
      have hroot1 : ∀ j ∈ liveIdxPL cs,
          entryAt (setSlot s oid key (Slot.desc { d with myIndex := d.myIndex + off })) cid j ≠
            some ⟨oid, key⟩ := hrootlive
      obtain ⟨s2, hrun, hroot2, hshift, hunt⟩ :=
        updLoop_ok cs f (setSlot s oid key (Slot.desc { d with myIndex := d.myIndex + off }))
          cid oid key off [] { d with myIndex := d.myIndex + off }
          hslot1 h2 (by simpa using h3) hm1 hndcs hroot1 hf2
      refine ⟨s2, ?_, ?_, ?_⟩
      · rw [hunf]
        have hlen : d.observerIndexes.length = plLen cs := by rw [h3, plRoots_length]
        rw [hlen]
        exact hrun
      · intro i hi e0 d0 hoi hsli
        rw [liveIdxPT] at hi
        rcases List.mem_cons.mp hi with hii | his
        · subst hii
          have he0 : e0 = ⟨oid, key⟩ := by
            rw [hoi] at hroot
            simpa using hroot
          subst he0
          have hsl0 : getSlot s oid key = some (Slot.desc d0) := hsli
          rw [hsl2] at hsl0
          have hd0 : d = d0 := by simpa using hsl0
          subst hd0
          show getSlot s2 oid key = some (Slot.desc (shiftDesc off d))
          rw [hroot2]
          simp [shiftDesc, h3]
        · have hne0 : e0 ≠ ⟨oid, key⟩ := by
            intro hcontra
            exact hrootlive i his (by rw [entryAt_of_obsAt hoi, hcontra])
          refine hshift i his e0 d0 hoi ?_
          rw [getSlot_setSlot_ne _ _ _ _ _ _ (ne_pair_of_entry_ne hne0)]
          exact hsli
      · have h1unt := untouched_setSlot s oid key (Slot.desc { d with myIndex := d.myIndex + off })
        have hlef : liveEntries (setSlot s oid key (Slot.desc { d with myIndex := d.myIndex + off }))
            cid (liveIdxPL cs) = liveEntries s cid (liveIdxPL cs) :=
          liveEntries_eq_of_cells rfl cid _
        rw [hlef] at hunt
        have hrootmem : (⟨oid, key⟩ : Entry) ∈ liveEntries s cid (liveIdxPT (PT.node i0 cs)) :=
          mem_liveEntries_iff.mpr ⟨i0, by simp [liveIdxPT], entryAt_of_obsAt hroot⟩
        refine untouched_comp h1unt hunt ?_ ?_
        · intro e2 he2
          have : e2 = ⟨oid, key⟩ := by simpa using he2
          subst this
          exact hrootmem
        · intro e2 he2
          rcases List.mem_cons.mp he2 with h | h
          · subst h
            exact hrootmem
          · rcases mem_liveEntries_iff.mp h with ⟨i, hi, hei⟩
            exact mem_liveEntries_iff.mpr
              ⟨i, by rw [liveIdxPT]; exact List.mem_cons_of_mem _ hi, hei⟩
    next => simp at hm
  next => simp at hm
termination_by sizeOf cs + 1

theorem updLoop_ok (cs : PL) (fuel : Nat) (s : State) (cid oid : Nat) (key : String)
    (off : Nat) (pre : List Nat) (d : Desc)
    (hslot : getSlot s oid key = some (Slot.desc d))
    (hcid : d.sharedObject = some cid)
    (hobs : d.observerIndexes = pre ++ plRoots cs)
    (hm : plMatch s cid cs = true)
    (hnd : (allIdxPL cs).Nodup)
    (hroot : ∀ j ∈ liveIdxPL cs, entryAt s cid j ≠ some ⟨oid, key⟩)
    (hfuel : wtPL cs < fuel) :
    ∃ s2, updLoop fuel s oid key off pre.length (plLen cs) = (s2, none) ∧
      getSlot s2 oid key =
        some (Slot.desc ⟨d.myIndex, pre ++ (plRoots cs).map (fun j => j + off), d.sharedObject⟩) ∧
      ShiftedAt s s2 cid off (liveIdxPL cs) ∧
      UntouchedOutside s s2 ((⟨oid, key⟩ : Entry) :: liveEntries s cid (liveIdxPL cs)) := by
  cases cs with
  | nil =>
    obtain ⟨f, rfl⟩ : ∃ f, fuel = f + 1 := ⟨fuel - 1, by omega⟩
    refine ⟨s, updLoop_zero f s oid key off pre.length, ?_, ?_, untouched_refl s _⟩
    · rw [hslot]
      have hpre : d.observerIndexes = pre := by simpa [plRoots] using hobs
      simp [plRoots, ← hpre]
    · intro i hi
      simp [liveIdxPL] at hi
  | cons c rest =>
    obtain ⟨f, rfl⟩ : ∃ f, fuel = f + 1 := ⟨fuel - 1, by omega⟩
    have hlt : oid < s.objs.length := getSlot_some_lt hslot
    have hmc : ptMatch s cid c = true ∧ plMatch s cid rest = true := by
      rw [plMatch, Bool.and_eq_true] at hm
      exact hm
    cases c with
    | dead j =>
      have hlives : liveIdxPL (PL.cons (PT.dead j) rest) = liveIdxPL rest := by
        simp [liveIdxPL, liveIdxPT]
      have hjidx : d.observerIndexes[pre.length]? = some j := by
        rw [hobs]
        simp only [plRoots, rootIdxPT]
        exact getElem?_append_cons pre _ _
      have hdead : obsAt s cid j = some none := by
        have hx := hmc.1
        unfold ptMatch at hx
        split at hx
        next ho2 => exact ho2
        next => simp at hx
      have hstep := updLoop_succ_dead f s oid key off pre.length (plLen rest) cid j d
        hslot hjidx hcid hdead
      have hsetlist : d.observerIndexes.set pre.length (j + off) =
          pre ++ (j + off) :: plRoots rest := by
        rw [hobs]
        simp only [plRoots, rootIdxPT]
        exact set_append_cons pre _ _ _
      have hnd3 : ([j] ++ allIdxPL rest).Nodup := by simpa [allIdxPL, allIdxPT] using hnd
      have hndr : (allIdxPL rest).Nodup := (List.nodup_append.mp hnd3).2.1
      have hrootr : ∀ j2 ∈ liveIdxPL rest,
          entryAt (setSlot s oid key
            (Slot.desc { d with observerIndexes := pre ++ (j + off) :: plRoots rest })) cid j2 ≠
          some ⟨oid, key⟩ := by
        intro j2 hj2
        exact hroot j2 (by rw [hlives]; exact hj2)
      have hm1 : plMatch (setSlot s oid key
          (Slot.desc { d with observerIndexes := pre ++ (j + off) :: plRoots rest })) cid rest =
          true := by
        refine plMatch_stable s _ cid rest hmc.2 (fun j2 hj2 => rfl) ?_
        intro j2 hj2 e2 he2
        apply getSlot_setSlot_ne
        apply ne_pair_of_entry_ne
        intro hcontra
        exact hroot j2 (by rw [hlives]; exact hj2) (by rw [entryAt_of_obsAt he2, hcontra])
      have hfr : wtPL rest < f := by
        rw [wtPL, wtPT] at hfuel
        omega
      obtain ⟨s2, hrun, hroot2, hshift, hunt⟩ :=
        updLoop_ok rest f
          (setSlot s oid key (Slot.desc { d with observerIndexes := pre ++ (j + off) :: plRoots rest }))
          cid oid key off (pre ++ [j + off])
          { d with observerIndexes := pre ++ (j + off) :: plRoots rest }
          (getSlot_setSlot_self _ _ _ _ hlt) hcid (by simp) hm1 hndr hrootr hfr
      refine ⟨s2, ?_, ?_, ?_, ?_⟩
      · simp only [plLen]
        rw [hstep, hsetlist]
        have : (pre ++ [j + off]).length = pre.length + 1 := by simp
        rw [this] at hrun
        exact hrun
      · rw [hroot2]
        simp [plRoots, rootIdxPT]
      · intro i hi e0 d0 hoi hsli
        rw [hlives] at hi
        have hne0 : e0 ≠ ⟨oid, key⟩ := by
          intro hcontra
          exact hroot i (by rw [hlives]; exact hi) (by rw [entryAt_of_obsAt hoi, hcontra])
        refine hshift i hi e0 d0 hoi ?_
        rw [getSlot_setSlot_ne _ _ _ _ _ _ (ne_pair_of_entry_ne hne0)]
        exact hsli
      · have h1unt := untouched_setSlot s oid key
          (Slot.desc { d with observerIndexes := pre ++ (j + off) :: plRoots rest })
        have hlef : liveEntries (setSlot s oid key
            (Slot.desc { d with observerIndexes := pre ++ (j + off) :: plRoots rest }))
            cid (liveIdxPL rest) = liveEntries s cid (liveIdxPL rest) :=
          liveEntries_eq_of_cells rfl cid _
        rw [hlef] at hunt
        rw [hlives]
        refine untouched_comp h1unt hunt ?_ ?_
        · intro e2 he2
          have : e2 = ⟨oid, key⟩ := by simpa using he2
          subst this
          simp
        · intro e2 he2
          exact he2
    | node j csj =>
      have hlives : liveIdxPL (PL.cons (PT.node j csj) rest) =
          liveIdxPT (PT.node j csj) ++ liveIdxPL rest := by
        rw [liveIdxPL]
      have hjidx : d.observerIndexes[pre.length]? = some j := by
        rw [hobs]
        simp only [plRoots, rootIdxPT]
        exact getElem?_append_cons pre _ _
      -- components of the child match
      have hmc2 := hmc.1
      unfold ptMatch at hmc2
      split at hmc2
      next ec hoC =>
        split at hmc2
        next dc hslC =>
          simp only [Bool.and_eq_true, beq_iff_eq] at hmc2
          obtain ⟨⟨⟨hc1, hc2⟩, hc3⟩, hc4⟩ := hmc2
          have hslC2 : getSlot s ec.obj ec.key = some (Slot.desc dc) := hslC
          -- nodup split
          have hnd3 : (allIdxPT (PT.node j csj) ++ allIdxPL rest).Nodup := by
            simpa [allIdxPL] using hnd
          have hndsplit := List.nodup_append.mp hnd3
          have hfC : wtPT (PT.node j csj) ≤ f := by
            rw [wtPL] at hfuel
            rw [wtPT] at hfuel ⊢
            omega
          -- run the child
          obtain ⟨s1c, hrunC, hshiftC, huntC⟩ :=
            updObs_ok j csj f s cid ec.obj ec.key off hmc.1 hoC hndsplit.1 hfC
          -- the root was not touched by the child
          have hrootC : ∀ j2 ∈ liveIdxPT (PT.node j csj), entryAt s cid j2 ≠ some ⟨oid, key⟩ := by
            intro j2 hj2
            exact hroot j2 (by rw [hlives]; exact List.mem_append_left _ hj2)
          have hrootnotinC : (⟨oid, key⟩ : Entry) ∉
              liveEntries s cid (liveIdxPT (PT.node j csj)) :=
            not_mem_liveEntries hrootC
          have hslot1c : getSlot s1c oid key = some (Slot.desc d) := by
            rw [huntC.2.2.2 oid key hrootnotinC]
            exact hslot
          have hcells1c : s1c.cells = s.cells := huntC.1
          have hstep := updLoop_succ_live f s s1c oid key off pre.length (plLen rest) cid j j
            d d ec hslot hjidx hcid hoC hrunC hslot1c hjidx
          have hsetlist : d.observerIndexes.set pre.length (j + off) =
              pre ++ (j + off) :: plRoots rest := by
            rw [hobs]
            simp only [plRoots, rootIdxPT]
            exact set_append_cons pre _ _ _
          have hlt1c : oid < s1c.objs.length := by
            rw [huntC.2.1]
            exact hlt
          -- entries of `rest` live positions are distinct from the child's live entries
          have hrestC : ∀ j2 ∈ liveIdxPL rest, ∀ e2, obsAt s cid j2 = some (some e2) →
              e2 ∉ liveEntries s cid (liveIdxPT (PT.node j csj)) := by
            intro j2 hj2 e2 he2 hmem
            rcases mem_liveEntries_iff.mp hmem with ⟨i3, hi3, hei3⟩
            obtain ⟨e3, d3, ho3, hsl3, hmy3, hsh3⟩ :=
              ptMatch_elim s cid (PT.node j csj) hmc.1 i3 hi3
            rw [entryAt_of_obsAt ho3] at hei3
            have he3 : e3 = e2 := by simpa using hei3
            obtain ⟨e4, d4, ho4, hsl4, hmy4, hsh4⟩ := plMatch_elim s cid rest hmc.2 j2 hj2
            rw [ho4] at he2
            have he4 : e4 = e2 := by simpa using he2
            have hij : i3 ≠ j2 := by
              intro hcontra
              have hdisj := hndsplit.2.2
              exact absurd (hcontra ▸ liveIdxPT_subset _ i3 hi3)
                (fun hmem2 => hdisj hmem2 (liveIdxPL_subset _ j2 hj2))
            exact live_entry_ne hsl3 hmy3 hsl4 hmy4 hij (by rw [he3, he4])
          -- slots of `rest` live entries are untouched so far
          have hrestslots : ∀ j2 ∈ liveIdxPL rest, ∀ e2, obsAt s cid j2 = some (some e2) →
              getSlot (setSlot s1c oid key
                (Slot.desc { d with observerIndexes := pre ++ (j + off) :: plRoots rest }))
                e2.obj e2.key = getSlot s e2.obj e2.key := by
            intro j2 hj2 e2 he2
            have hne2 : e2 ≠ ⟨oid, key⟩ := by
              intro hcontra
              exact hroot j2 (by rw [hlives]; exact List.mem_append_right _ hj2)
                (by rw [entryAt_of_obsAt he2, hcontra])
            rw [getSlot_setSlot_ne _ _ _ _ _ _ (ne_pair_of_entry_ne hne2)]
            exact huntC.2.2.2 e2.obj e2.key
              (by
                intro hmem
                exact hrestC j2 hj2 e2 he2 (by
                  have he2eta : (⟨e2.obj, e2.key⟩ : Entry) = e2 := rfl
                  rw [he2eta] at hmem
                  exact hmem))
          have hcells1cp : (setSlot s1c oid key
              (Slot.desc { d with observerIndexes := pre ++ (j + off) :: plRoots rest })).cells =
              s.cells := hcells1c
          have hm1 : plMatch (setSlot s1c oid key
              (Slot.desc { d with observerIndexes := pre ++ (j + off) :: plRoots rest }))
              cid rest = true := by
            refine plMatch_stable s _ cid rest hmc.2 ?_ hrestslots
            intro j2 hj2
            exact obsAt_eq_of_cells hcells1cp cid j2
          have hrootr : ∀ j2 ∈ liveIdxPL rest,
              entryAt (setSlot s1c oid key
                (Slot.desc { d with observerIndexes := pre ++ (j + off) :: plRoots rest }))
                cid j2 ≠ some ⟨oid, key⟩ := by
            intro j2 hj2
            rw [entryAt_eq_of_cells hcells1cp cid j2]
            exact hroot j2 (by rw [hlives]; exact List.mem_append_right _ hj2)
          have hfr : wtPL rest < f := by
            rw [wtPL, wtPT] at hfuel
            omega
          obtain ⟨s2, hrun, hroot2, hshift, hunt⟩ :=
            updLoop_ok rest f
              (setSlot s1c oid key
                (Slot.desc { d with observerIndexes := pre ++ (j + off) :: plRoots rest }))
              cid oid key off (pre ++ [j + off])
              { d with observerIndexes := pre ++ (j + off) :: plRoots rest }
              (getSlot_setSlot_self _ _ _ _ hlt1c) hcid (by simp)
              hm1 ((List.nodup_append.mp hnd3).2.1) hrootr hfr
          refine ⟨s2, ?_, ?_, ?_, ?_⟩
          · simp only [plLen]
            rw [hstep, hsetlist]
            have : (pre ++ [j + off]).length = pre.length + 1 := by simp
            rw [this] at hrun
            exact hrun
          · rw [hroot2]
            simp [plRoots, rootIdxPT]
          · intro i hi e0 d0 hoi hsli
            rw [hlives] at hi
            rcases List.mem_append.mp hi with hic | hir
            · -- a live position of the child subtree: shifted by the child run, then preserved
              have hs1cval := hshiftC i hic e0 d0 hoi hsli
              have hne0 : e0 ≠ ⟨oid, key⟩ := by
                intro hcontra
                exact hrootC i hic (by rw [entryAt_of_obsAt hoi, hcontra])
              have hs1pval : getSlot (setSlot s1c oid key
                  (Slot.desc { d with observerIndexes := pre ++ (j + off) :: plRoots rest }))
                  e0.obj e0.key = some (Slot.desc (shiftDesc off d0)) := by
                rw [getSlot_setSlot_ne _ _ _ _ _ _ (ne_pair_of_entry_ne hne0)]
                exact hs1cval
              rw [← hs1pval]
              apply hunt.2.2.2
              intro hmem
              rcases List.mem_cons.mp hmem with hx | hx
              · exact hne0 (by
                  have : (⟨e0.obj, e0.key⟩ : Entry) = e0 := rfl
                  rw [← this]
                  exact hx)
              · rcases mem_liveEntries_iff.mp hx with ⟨i4, hi4, hei4⟩
                rw [entryAt_eq_of_cells hcells1cp cid i4] at hei4
                rcases mem_liveEntries_iff.mp
                  (mem_liveEntries_iff.mpr ⟨i4, hi4, hei4⟩ :
                    (⟨e0.obj, e0.key⟩ : Entry) ∈ liveEntries s cid (liveIdxPL rest)) with ⟨i5, hi5, hei5⟩
                obtain ⟨e5, d5, ho5, hsl5, hmy5, hsh5⟩ := plMatch_elim s cid rest hmc.2 i5 hi5
                rw [entryAt_of_obsAt ho5] at hei5
                have he5 : e5 = ⟨e0.obj, e0.key⟩ := by simpa using hei5
                obtain ⟨e6, d6, ho6, hsl6, hmy6, hsh6⟩ :=
                  ptMatch_elim s cid (PT.node j csj) hmc.1 i hic
                rw [ho6] at hoi
                have he6 : e6 = e0 := by simpa using hoi
                have hij : i ≠ i5 := by
                  intro hcontra
                  have hdisj := hndsplit.2.2
                  exact absurd (hcontra ▸ liveIdxPT_subset _ i hic)
                    (fun hmem2 => hdisj hmem2 (liveIdxPL_subset _ i5 hi5))
                exact live_entry_ne hsl6 hmy6 hsl5 hmy5 hij (by rw [he6, he5])
            · -- a live position of the remaining siblings
              have he2ne : e0 ≠ ⟨oid, key⟩ := by
                intro hcontra
                exact hroot i (by rw [hlives]; exact List.mem_append_right _ hir)
                  (by rw [entryAt_of_obsAt hoi, hcontra])
              have hval : getSlot (setSlot s1c oid key
                  (Slot.desc { d with observerIndexes := pre ++ (j + off) :: plRoots rest }))
                  e0.obj e0.key = some (Slot.desc d0) := by
                rw [hrestslots i hir e0 hoi]
                exact hsli
              refine hshift i hir e0 d0 ?_ hval
              rw [obsAt_eq_of_cells hcells1cp cid i]
              exact hoi
          · -- untouched composition across all three steps
            have hsub1 : ∀ e2 ∈ liveEntries s cid (liveIdxPT (PT.node j csj)),
                e2 ∈ (⟨oid, key⟩ : Entry) ::
                  liveEntries s cid (liveIdxPL (PL.cons (PT.node j csj) rest)) := by
              intro e2 he2
              rcases mem_liveEntries_iff.mp he2 with ⟨i4, hi4, hei4⟩
              exact List.mem_cons_of_mem _ (mem_liveEntries_iff.mpr
                ⟨i4, by rw [hlives]; exact List.mem_append_left _ hi4, hei4⟩)
            have hcomp1 : UntouchedOutside s
                (setSlot s1c oid key
                  (Slot.desc { d with observerIndexes := pre ++ (j + off) :: plRoots rest }))
                ((⟨oid, key⟩ : Entry) ::
                  liveEntries s cid (liveIdxPL (PL.cons (PT.node j csj) rest))) := by
              refine untouched_comp huntC
                (untouched_setSlot s1c oid key
                  (Slot.desc { d with observerIndexes := pre ++ (j + off) :: plRoots rest }))
                hsub1 ?_
              intro e2 he2
              have : e2 = ⟨oid, key⟩ := by simpa using he2
              subst this
              simp
            have hlef : liveEntries (setSlot s1c oid key
                (Slot.desc { d with observerIndexes := pre ++ (j + off) :: plRoots rest }))
                cid (liveIdxPL rest) = liveEntries s cid (liveIdxPL rest) :=
              liveEntries_eq_of_cells hcells1cp cid _
            rw [hlef] at hunt
            refine untouched_comp hcomp1 hunt (fun e2 he2 => he2) ?_
            intro e2 he2
            rcases List.mem_cons.mp he2 with hx | hx
            · subst hx
              simp
            · rcases mem_liveEntries_iff.mp hx with ⟨i4, hi4, hei4⟩
              exact List.mem_cons_of_mem _ (mem_liveEntries_iff.mpr
                ⟨i4, by rw [hlives]; exact List.mem_append_right _ hi4, hei4⟩)
        next => simp at hmc2
      next => simp at hmc2
termination_by sizeOf cs

end

set_option maxHeartbeats 200000

/-! ### Correctness of the rewire/notify loop -/

theorem bindLoop_zero (s : State) (targetId : Nat) (tk : String) (n : Nat) (obsValue : Val)
    (noNotify : Bool) (acc : List Notif) (i0 : Nat) :
    bindLoop s targetId tk n obsValue noNotify acc i0 0 = ⟨s, acc, none⟩ := by
  simp only [bindLoop]

theorem bindLoop_skip_low (s : State) (targetId : Nat) (tk : String) (n : Nat) (obsValue : Val)
    (noNotify : Bool) (acc : List Notif) (i0 rem1 : Nat) (h : i0 < n) :
    bindLoop s targetId tk n obsValue noNotify acc i0 (rem1 + 1) =
      bindLoop s targetId tk n obsValue noNotify acc (i0 + 1) rem1 := by
  simp only [bindLoop, if_pos h]

theorem bindLoop_skip_dead (s : State) (targetId : Nat) (tk : String) (n : Nat) (obsValue : Val)
    (noNotify : Bool) (acc : List Notif) (i0 rem1 ct : Nat) (h : ¬ i0 < n)
    (hts : cellIdThrough s targetId tk = some ct)
    (hdead : obsAt s ct i0 = some none) :
    bindLoop s targetId tk n obsValue noNotify acc i0 (rem1 + 1) =
      bindLoop s targetId tk n obsValue noNotify acc (i0 + 1) rem1 := by
  simp only [bindLoop, if_neg h, hts, hdead]

theorem bindLoop_live_eq (s : State) (targetId : Nat) (tk : String) (n : Nat) (obsValue : Val)
    (noNotify : Bool) (acc : List Notif) (i0 rem1 ct ct2 : Nat) (e : Entry) (d2 : Desc)
    (h : ¬ i0 < n)
    (hts : cellIdThrough s targetId tk = some ct)
    (hlive : obsAt s ct i0 = some (some e))
    (hsl : getSlot s e.obj e.key = some (Slot.desc d2))
    (hts1 : cellIdThrough (setSlot s e.obj e.key
      (Slot.desc { d2 with sharedObject := some ct })) targetId tk = some ct2) :
    bindLoop s targetId tk n obsValue noNotify acc i0 (rem1 + 1) =
      (if ((getCell (setSlot s e.obj e.key
            (Slot.desc { d2 with sharedObject := some ct })) ct2).value.jsEq obsValue ||
           (strictEqStringNumber i0 n && noNotify)) = true then
         bindLoop (setSlot s e.obj e.key (Slot.desc { d2 with sharedObject := some ct }))
           targetId tk n obsValue noNotify acc (i0 + 1) rem1
       else if hasCallback (setSlot s e.obj e.key
            (Slot.desc { d2 with sharedObject := some ct })) e.obj e.key = true then
         bindLoop (setSlot s e.obj e.key (Slot.desc { d2 with sharedObject := some ct }))
           targetId tk n obsValue noNotify (acc ++ [⟨e.obj, e.key, none⟩]) (i0 + 1) rem1
       else
         bindLoop (setSlot s e.obj e.key (Slot.desc { d2 with sharedObject := some ct }))
           targetId tk n obsValue noNotify acc (i0 + 1) rem1) := by
  simp only [bindLoop, if_neg h, hts, hlive, hsl, hts1]

/-- The rewire/notify loop of `bindTo` succeeds when every live entry at a
position `≥ n` in the remaining range owns a descriptor slot, is not the
target's own slot, and no entry appears at two such positions: it
repoints each such descriptor's `__sharedObject` at `ct`, touches no other
slot and no cell, and (whatever callbacks fire) reports no error. -/
theorem bindLoop_ok (rem : Nat) : ∀ (s : State) (targetId : Nat) (tk : String) (n : Nat)
    (obsValue : Val) (noNotify : Bool) (acc : List Notif) (ct i0 : Nat),
    cellIdThrough s targetId tk = some ct →
    i0 + rem = (getCell s ct).observers.length →
    (∀ i e, i0 ≤ i → ¬ i < n → obsAt s ct i = some (some e) →
      (∃ d2, getSlot s e.obj e.key = some (Slot.desc d2)) ∧ e ≠ (⟨targetId, tk⟩ : Entry)) →
    (∀ i j e, i0 ≤ i → i0 ≤ j → ¬ i < n → ¬ j < n → i ≠ j →
      obsAt s ct i = some (some e) → obsAt s ct j ≠ some (some e)) →
    ∃ s2 notifs,
      bindLoop s targetId tk n obsValue noNotify acc i0 rem = ⟨s2, notifs, none⟩ ∧
      s2.cells = s.cells ∧
      s2.objs.length = s.objs.length ∧
      (∀ o, (getObj s2 o).callbacks = (getObj s o).callbacks) ∧
      (∀ i e d2, i0 ≤ i → ¬ i < n → obsAt s ct i = some (some e) →
        getSlot s e.obj e.key = some (Slot.desc d2) →
        getSlot s2 e.obj e.key = some (Slot.desc { d2 with sharedObject := some ct })) ∧
      (∀ o k, (∀ i e, i0 ≤ i → ¬ i < n → obsAt s ct i = some (some e) → e ≠ ⟨o, k⟩) →
        getSlot s2 o k = getSlot s o k) := by
  induction rem with
  | zero =>
    intro s targetId tk n obsValue noNotify acc ct i0 hts hlen hdesc hdist
    refine ⟨s, acc, bindLoop_zero s targetId tk n obsValue noNotify acc i0, rfl, rfl,
      fun _ => rfl, ?_, fun _ _ _ => rfl⟩
    intro i e d2 hi0 hin hoi hsl
    have hlt : i < (getCell s ct).observers.length :=
      (List.getElem?_eq_some_iff.mp (hoi : (getCell s ct).observers[i]? = some (some e))).1
    omega
  | succ rem1 ih =>
    intro s targetId tk n obsValue noNotify acc ct i0 hts hlen hdesc hdist
    by_cases hlow : i0 < n
    · obtain ⟨s2, notifs, hrun, hc, hl, hcb, hshift, hframe⟩ :=
        ih s targetId tk n obsValue noNotify acc ct (i0 + 1) hts (by omega)
          (fun i e hi hn ho => hdesc i e (by omega) hn ho)
          (fun i j e hi hj hni hnj hij ho => hdist i j e (by omega) (by omega) hni hnj hij ho)
      refine ⟨s2, notifs, ?_, hc, hl, hcb, ?_, ?_⟩
      · rw [bindLoop_skip_low s targetId tk n obsValue noNotify acc i0 rem1 hlow]
        exact hrun
      · intro i e d2 hi0 hin hoi hsl
        exact hshift i e d2 (by omega) hin hoi hsl
      · intro o k hno
        exact hframe o k (fun i e hi hn ho => hno i e (by omega) hn ho)
    · have hin0 : i0 < (getCell s ct).observers.length := by omega
      rcases ho0 : obsAt s ct i0 with _ | (_ | e)
      · exact absurd ho0 (by simp [obsAt, List.getElem?_eq_none_iff]; omega)
      · obtain ⟨s2, notifs, hrun, hc, hl, hcb, hshift, hframe⟩ :=
          ih s targetId tk n obsValue noNotify acc ct (i0 + 1) hts (by omega)
            (fun i e hi hn ho => hdesc i e (by omega) hn ho)
            (fun i j e hi hj hni hnj hij ho => hdist i j e (by omega) (by omega) hni hnj hij ho)
        refine ⟨s2, notifs, ?_, hc, hl, hcb, ?_, ?_⟩
        · rw [bindLoop_skip_dead s targetId tk n obsValue noNotify acc i0 rem1 ct hlow hts ho0]
          exact hrun
        · intro i e d2 hi0 hin hoi hsl
          have hi1 : i0 + 1 ≤ i := by
            rcases Nat.eq_or_lt_of_le hi0 with h | h
            · rw [← h] at hoi
              rw [ho0] at hoi
              simp at hoi
            · omega
          exact hshift i e d2 hi1 hin hoi hsl
        · intro o k hno
          exact hframe o k (fun i e hi hn ho => hno i e (by omega) hn ho)
      · obtain ⟨⟨d2, hsl⟩, hnet⟩ := hdesc i0 e (Nat.le_refl _) hlow ho0
        have hts1 : cellIdThrough (setSlot s e.obj e.key
            (Slot.desc { d2 with sharedObject := some ct })) targetId tk = some ct := by
          unfold cellIdThrough
          rw [getSlot_setSlot_ne _ _ _ _ _ _ (fun hc =>
            hnet (by cases e; simp at hc; simp [hc.1, hc.2]))]
          unfold cellIdThrough at hts
          exact hts
        have hmain : ∀ acc2 : List Notif, ∃ s2 notifs,
            bindLoop (setSlot s e.obj e.key (Slot.desc { d2 with sharedObject := some ct }))
              targetId tk n obsValue noNotify acc2 (i0 + 1) rem1 = ⟨s2, notifs, none⟩ ∧
            s2.cells = s.cells ∧
            s2.objs.length = s.objs.length ∧
            (∀ o, (getObj s2 o).callbacks = (getObj s o).callbacks) ∧
            (∀ i e2 d3, i0 ≤ i → ¬ i < n → obsAt s ct i = some (some e2) →
              getSlot s e2.obj e2.key = some (Slot.desc d3) →
              getSlot s2 e2.obj e2.key = some (Slot.desc { d3 with sharedObject := some ct })) ∧
            (∀ o k, (∀ i e2, i0 ≤ i → ¬ i < n → obsAt s ct i = some (some e2) → e2 ≠ ⟨o, k⟩) →
              getSlot s2 o k = getSlot s o k) := by
          intro acc2
          have hdesc1 : ∀ i e2, i0 + 1 ≤ i → ¬ i < n →
              obsAt (setSlot s e.obj e.key (Slot.desc { d2 with sharedObject := some ct })) ct i =
                some (some e2) →
              (∃ d3, getSlot (setSlot s e.obj e.key
                (Slot.desc { d2 with sharedObject := some ct })) e2.obj e2.key =
                  some (Slot.desc d3)) ∧ e2 ≠ (⟨targetId, tk⟩ : Entry) := by
            intro i e2 hi hn ho
            obtain ⟨⟨d3, hd3⟩, hne2⟩ := hdesc i e2 (by omega) hn ho
            refine ⟨?_, hne2⟩
            by_cases heq : e2 = e
            · subst heq
              exact ⟨{ d2 with sharedObject := some ct },
                getSlot_setSlot_self _ _ _ _ (getSlot_some_lt hsl)⟩
            · exact ⟨d3, by
                rw [getSlot_setSlot_ne _ _ _ _ _ _ (ne_pair_of_entry_ne heq)]
                exact hd3⟩
          have hdist1 : ∀ i j e2, i0 + 1 ≤ i → i0 + 1 ≤ j → ¬ i < n → ¬ j < n → i ≠ j →
              obsAt (setSlot s e.obj e.key (Slot.desc { d2 with sharedObject := some ct })) ct i =
                some (some e2) →
              obsAt (setSlot s e.obj e.key (Slot.desc { d2 with sharedObject := some ct })) ct j ≠
                some (some e2) := by
            intro i j e2 hi hj hni hnj hij ho
            exact hdist i j e2 (by omega) (by omega) hni hnj hij ho
          obtain ⟨s2, notifs, hrun, hc, hl, hcb, hshift, hframe⟩ :=
            ih (setSlot s e.obj e.key (Slot.desc { d2 with sharedObject := some ct }))
              targetId tk n obsValue noNotify acc2 ct (i0 + 1) hts1
              (by
                show i0 + 1 + rem1 = (getCell s ct).observers.length
                omega)
              hdesc1 hdist1
          refine ⟨s2, notifs, hrun, hc, ?_, ?_, ?_, ?_⟩
          · exact hl.trans (objs_length_setSlot s e.obj e.key _)
          · intro o
            exact (hcb o).trans (callbacks_setSlot s e.obj e.key _ o)
          · intro i e2 d3 hi0 hin hoi hsl3
            by_cases heq : i = i0
            · subst heq
              rw [ho0] at hoi
              have he2 : e = e2 := by simpa using hoi
              subst he2
              rw [hsl] at hsl3
              have hd3 : d2 = d3 := by simpa using hsl3
              subst hd3
              have hside : ∀ i2 e3, i + 1 ≤ i2 → ¬ i2 < n →
                  obsAt s ct i2 = some (some e3) → e3 ≠ ⟨e.obj, e.key⟩ := by
                intro i2 e3 hi2 hn2 ho2 hee
                subst hee
                refine hdist i i2 ⟨e.obj, e.key⟩ (Nat.le_refl _) (by omega) hlow hn2
                  (by omega) ?_ ho2
                have hee2 : (⟨e.obj, e.key⟩ : Entry) = e := rfl
                rw [hee2]
                exact ho0
              rw [hframe e.obj e.key hside]
              exact getSlot_setSlot_self _ _ _ _ (getSlot_some_lt hsl)
            · have hne3 : e2 ≠ e := by
                intro hcontra
                subst hcontra
                exact hdist i0 i e2 (Nat.le_refl _) (by omega) hlow hin
                  (fun hcn => heq hcn.symm) ho0 hoi
              refine hshift i e2 d3 (by omega) hin hoi ?_
              rw [getSlot_setSlot_ne _ _ _ _ _ _ (ne_pair_of_entry_ne hne3)]
              exact hsl3
          · intro o k hno
            have h1 : getSlot s2 o k = getSlot (setSlot s e.obj e.key
                (Slot.desc { d2 with sharedObject := some ct })) o k := by
              apply hframe
              intro i e2 hi hn ho
              exact hno i e2 (by omega) hn ho
            rw [h1, getSlot_setSlot_ne]
            exact ne_pair_of_entry_ne2 (hno i0 e (Nat.le_refl _) hlow ho0)
        rw [bindLoop_live_eq s targetId tk n obsValue noNotify acc i0 rem1 ct ct e d2
          hlow hts ho0 hsl hts1]
        by_cases hC : ((getCell (setSlot s e.obj e.key
            (Slot.desc { d2 with sharedObject := some ct })) ct).value.jsEq obsValue ||
            (strictEqStringNumber i0 n && noNotify)) = true
        · rw [if_pos hC]
          exact hmain acc
        · rw [if_neg hC]
          by_cases hC2 : hasCallback (setSlot s e.obj e.key
              (Slot.desc { d2 with sharedObject := some ct })) e.obj e.key = true
          · rw [if_pos hC2]
            exact hmain (acc ++ [⟨e.obj, e.key, none⟩])
          · rw [if_neg hC2]
            exact hmain acc

/-! ### Assembling the merge path of `bindTo` -/

theorem bindSource_merge_eq (fuel : Nat) (s2 : State) (selfId : Nat) (key : String)
    (targetId : Nat) (tk : String) (n : Nat) (noNotify : Bool) (dS : Desc)
    (h1 : getSlot s2 selfId key = some (Slot.desc dS)) (h0 : dS.myIndex = 0) :
    bindSource fuel s2 selfId key targetId tk n noNotify =
      (match updObs fuel s2 selfId key n with
       | (s3, some e) => ⟨s3, [], some e⟩
       | (s3, none) => mergeObservers s3 selfId key targetId tk n noNotify) := by
  have hb : isPropertyBound s2 selfId key = true := by simp [isPropertyBound, h1]
  have hmy : myIndexOf (getSlot s2 selfId key) = some 0 := by simp [myIndexOf, h1, h0]
  simp [bindSource, hb, hmy]

theorem mergeObservers_eq (s3 : State) (selfId : Nat) (key : String) (targetId : Nat)
    (tk : String) (n : Nat) (noNotify : Bool) (dT3 dS3 : Desc) (ct3 cs3 : Nat)
    (hT3 : getSlot s3 targetId tk = some (Slot.desc dT3)) (hTso3 : dT3.sharedObject = some ct3)
    (hS3 : getSlot s3 selfId key = some (Slot.desc dS3)) (hSso3 : dS3.sharedObject = some cs3) :
    mergeObservers s3 selfId key targetId tk n noNotify =
      bindLoop (setCell s3 ct3 { getCell s3 ct3 with
          observers := (getCell s3 ct3).observers ++ (getCell s3 cs3).observers })
        targetId tk n
        ((getCell (setCell s3 ct3 { getCell s3 ct3 with
          observers := (getCell s3 ct3).observers ++ (getCell s3 cs3).observers }) cs3).value)
        noNotify [] 0
        ((getCell (setCell s3 ct3 { getCell s3 ct3 with
          observers := (getCell s3 ct3).observers ++ (getCell s3 cs3).observers }) ct3).observers.length) := by
  simp only [mergeObservers, hT3, hS3, hTso3, hSso3]

theorem obsAt_of_entryAt {s : State} {cid i : Nat} {e : Entry}
    (h : entryAt s cid i = some e) : obsAt s cid i = some (some e) := by
  unfold entryAt at h
  split at h
  next e2 ho =>
    cases h
    exact ho
  next => cases h

theorem tableOk_elim {s : State} {cid : Nat} (h : tableOk s cid = true) :
    ∀ i e, obsAt s cid i = some (some e) → ∃ d2,
      getSlot s e.obj e.key = some (Slot.desc d2) ∧ d2.myIndex = i ∧
      d2.sharedObject = some cid := by
  intro i e ho
  have hi : i < (getCell s cid).observers.length :=
    (List.getElem?_eq_some_iff.mp (ho : (getCell s cid).observers[i]? = some (some e))).1
  have hall := List.all_eq_true.mp h i (List.mem_range.mpr hi)
  simp only [ho] at hall
  split at hall
  next d hsl =>
    simp only [Bool.and_eq_true, beq_iff_eq] at hall
    exact ⟨d, hsl, hall.1, hall.2⟩
  next => simp at hall

theorem getField_mem_keys {f : List (String × Slot)} {k : String} {sl : Slot}
    (h : getField f k = some sl) : k ∈ f.map Prod.fst := by
  induction f with
  | nil => simp [getField] at h
  | cons p rest ih =>
    rw [getField] at h
    by_cases hk : p.1 = k
    · simp [hk]
    · rw [if_neg hk] at h
      simp [ih h]

theorem mem_descRefs {s : State} {cid : Nat} {o : Nat} {k : String} {d : Desc}
    (hsl : getSlot s o k = some (Slot.desc d)) (hso : d.sharedObject = some cid) :
    (⟨o, k⟩ : Entry) ∈ descRefs s cid := by
  have ho : o < s.objs.length := getSlot_some_lt hsl
  have hk : k ∈ (getObj s o).fields.map Prod.fst := getField_mem_keys hsl
  unfold descRefs
  refine List.mem_flatMap.mpr ⟨o, List.mem_range.mpr ho, ?_⟩
  refine List.mem_filterMap.mpr ⟨k, hk, ?_⟩
  simp [hsl, hso]

/-- The merge branch of `bindTo`: binding an already-bound root source
(`__myIndex = 0`, cell `cs`) into a bound target (cell `ct ≠ cs`) whose
table satisfies the index invariant, when the source group is described by
a matching proxy tree rooted at the source attribute and spanning the live
entries of `cs`.  The call succeeds; the target cell's table becomes the
target entries followed by the source entries; the target's descriptor has
gained the proxy index `n`; every live source member's descriptor has `n`
added to its `__myIndex` and `__observerIndexes` and its `__sharedObject`
rewired to `ct`; every other slot, every other cell, the heap size and all
callbacks are untouched. -/
theorem bindMergeCore (fuel : Nat) (s : State) (selfId : Nat) (key : String) (targetId : Nat)
    (tkOpt : Option String) (noNotify : Bool) (dT dS : Desc) (ct cs : Nat) (csT : PL)
    (hT : getSlot s targetId (tkOpt.getD key) = some (Slot.desc dT))
    (hTso : dT.sharedObject = some ct)
    (hS : getSlot s selfId key = some (Slot.desc dS))
    (hS0 : dS.myIndex = 0)
    (hSso : dS.sharedObject = some cs)
    (hcsct : cs ≠ ct)
    (hctlt : ct < s.cells.length)
    (hm : ptMatch s cs (PT.node 0 csT) = true)
    (hroot : obsAt s cs 0 = some (some ⟨selfId, key⟩))
    (hnd : (allIdxPT (PT.node 0 csT)).Nodup)
    (hspanB : ∀ j, j < (getCell s cs).observers.length →
      obsAt s cs j = some none ∨ j ∈ liveIdxPT (PT.node 0 csT))
    (htOkB : tableOk s ct = true)
    (hfuel : wtPT (PT.node 0 csT) ≤ fuel) :
    ∃ s5 notifs,
      bindTo fuel s selfId key targetId tkOpt noNotify = ⟨s5, notifs, none⟩ ∧
      (getCell s5 ct).observers = (getCell s ct).observers ++ (getCell s cs).observers ∧
      (getCell s5 ct).value = (getCell s ct).value ∧
      getSlot s5 targetId (tkOpt.getD key) = some (Slot.desc { dT with
        observerIndexes := dT.observerIndexes ++ [(getCell s ct).observers.length] }) ∧
      (∀ j ∈ liveIdxPT (PT.node 0 csT), ∀ e d2, obsAt s cs j = some (some e) →
        getSlot s e.obj e.key = some (Slot.desc d2) →
        getSlot s5 e.obj e.key = some (Slot.desc
          ⟨d2.myIndex + (getCell s ct).observers.length,
           d2.observerIndexes.map (fun x => x + (getCell s ct).observers.length), some ct⟩)) ∧
      (∀ o k, ¬ (o = targetId ∧ k = tkOpt.getD key) →
        (∀ j ∈ liveIdxPT (PT.node 0 csT), entryAt s cs j ≠ some ⟨o, k⟩) →
        getSlot s5 o k = getSlot s o k) ∧
      (∀ i e, obsAt s5 ct i = some (some e) → ∃ d2,
        getSlot s5 e.obj e.key = some (Slot.desc d2) ∧ d2.myIndex = i ∧
        d2.sharedObject = some ct) ∧
      (∀ c2, c2 ≠ ct → getCell s5 c2 = getCell s c2) ∧
      s5.objs.length = s.objs.length ∧
      (∀ o, (getObj s5 o).callbacks = (getObj s o).callbacks) := by
  have hspan : ∀ j e, obsAt s cs j = some (some e) → j ∈ liveIdxPT (PT.node 0 csT) := by
    intro j e ho
    have hj : j < (getCell s cs).observers.length :=
      (List.getElem?_eq_some_iff.mp (ho : (getCell s cs).observers[j]? = some (some e))).1
    rcases hspanB j hj with hdead | hlive
    · rw [ho] at hdead
      simp at hdead
    · exact hlive
  have htOk := tableOk_elim htOkB
  have hne : ¬ (selfId = targetId ∧ key = tkOpt.getD key) := by
    rintro ⟨h1, h2⟩
    rw [h1, h2, hT] at hS
    have hd : dS = dT := by simpa using hS.symm
    rw [hd, hTso] at hSso
    exact hcsct (Option.some.inj hSso).symm
  have hnotT : ∀ j ∈ liveIdxPT (PT.node 0 csT), ∀ e, obsAt s cs j = some (some e) →
      e ≠ (⟨targetId, tkOpt.getD key⟩ : Entry) := by
    intro j hj e ho he
    obtain ⟨e2, d2, ho2, hsl2, hmi2, hso2⟩ := ptMatch_elim s cs _ hm j hj
    rw [ho] at ho2
    have he2 : e2 = e := by simpa using ho2.symm
    rw [he2] at hsl2
    have hob : e.obj = targetId := by rw [he]
    have hk : e.key = tkOpt.getD key := by rw [he]
    rw [hob, hk, hT] at hsl2
    have hd : d2 = dT := by simpa using hsl2.symm
    rw [hd, hTso] at hso2
    exact hcsct (Option.some.inj hso2).symm
  have hpb : isPropertyBound s targetId (tkOpt.getD key) = true := by
    simp [isPropertyBound, hT]
  have hprom : promoteTarget s targetId (tkOpt.getD key) = s :=
    promoteTarget_bound s targetId (tkOpt.getD key) hpb
  have hstep := bindTo_eq_bindSource fuel s selfId key targetId tkOpt noNotify
    (Slot.desc dT) dT ct hT (by rw [hprom]; exact hT) hTso
  rw [hprom] at hstep
  obtain ⟨s2, hs2⟩ : ∃ s2, setSlot s targetId (tkOpt.getD key)
      (Slot.desc { dT with observerIndexes := dT.observerIndexes ++
        [(getCell s ct).observers.length] }) = s2 := ⟨_, rfl⟩
  rw [hs2] at hstep
  have hc2cells : s2.cells = s.cells := by
    rw [← hs2]
    rfl
  have hobs2 : ∀ cid i, obsAt s2 cid i = obsAt s cid i := fun cid i =>
    obsAt_eq_of_cells hc2cells cid i
  have hS2 : getSlot s2 selfId key = some (Slot.desc dS) := by
    rw [← hs2, getSlot_setSlot_ne _ _ _ _ _ _ hne]
    exact hS
  have hT2 : getSlot s2 targetId (tkOpt.getD key) = some (Slot.desc { dT with
      observerIndexes := dT.observerIndexes ++ [(getCell s ct).observers.length] }) := by
    rw [← hs2]
    exact getSlot_setSlot_self _ _ _ _ (getSlot_some_lt hT)
  have hm2 : ptMatch s2 cs (PT.node 0 csT) = true := by
    refine ptMatch_stable s s2 cs _ hm (fun j _ => hobs2 cs j) ?_
    intro j hj e ho
    rw [← hs2]
    exact getSlot_setSlot_ne _ _ _ _ _ _ (ne_pair_of_entry_ne (hnotT j hj e ho))
  have hroot2 : obsAt s2 cs 0 = some (some ⟨selfId, key⟩) := by
    rw [hobs2]
    exact hroot
  obtain ⟨s3, hrun3, hshift3, hunt3⟩ := updObs_ok 0 csT fuel s2 cs selfId key
    (getCell s ct).observers.length hm2 hroot2 hnd hfuel
  obtain ⟨hc3cells, hl3, hcb3, hfr3⟩ := hunt3
  have hc3s : s3.cells = s.cells := hc3cells.trans hc2cells
  have hTnot : (⟨targetId, tkOpt.getD key⟩ : Entry) ∉
      liveEntries s2 cs (liveIdxPT (PT.node 0 csT)) := by
    apply not_mem_liveEntries
    intro j hj he
    have he2 := obsAt_of_entryAt he
    rw [hobs2] at he2
    exact hnotT j hj _ he2 rfl
  have hT3 : getSlot s3 targetId (tkOpt.getD key) = some (Slot.desc { dT with
      observerIndexes := dT.observerIndexes ++ [(getCell s ct).observers.length] }) := by
    rw [hfr3 _ _ hTnot]
    exact hT2
  have h0mem : (0 : Nat) ∈ liveIdxPT (PT.node 0 csT) := by
    rw [liveIdxPT]
    exact List.mem_cons_self 0 _
  have hS3 : getSlot s3 selfId key = some (Slot.desc (shiftDesc
      (getCell s ct).observers.length dS)) :=
    hshift3 0 h0mem ⟨selfId, key⟩ dS hroot2 hS2
  have hstep2 := bindSource_merge_eq fuel s2 selfId key targetId (tkOpt.getD key)
    ((getCell s ct).observers.length) noNotify dS hS2 hS0
  simp only [hrun3] at hstep2
  have hstep3 := mergeObservers_eq s3 selfId key targetId (tkOpt.getD key)
    ((getCell s ct).observers.length) noNotify
    { dT with observerIndexes := dT.observerIndexes ++ [(getCell s ct).observers.length] }
    (shiftDesc (getCell s ct).observers.length dS) ct cs hT3 hTso hS3 hSso
  obtain ⟨s4, hs4⟩ : ∃ s4, setCell s3 ct { getCell s3 ct with
      observers := (getCell s3 ct).observers ++ (getCell s3 cs).observers } = s4 := ⟨_, rfl⟩
  rw [hs4] at hstep3
  have hcell3 : ∀ c, getCell s3 c = getCell s c := getCell_eq_of_cells hc3s
  have hc4ct : getCell s4 ct = { getCell s ct with
      observers := (getCell s ct).observers ++ (getCell s cs).observers } := by
    rw [← hs4, getCell_setCell_self _ _ _ (by rw [hc3s]; exact hctlt), hcell3 ct, hcell3 cs]
  have hsl4 : ∀ o k, getSlot s4 o k = getSlot s3 o k := by
    intro o k
    rw [← hs4]
    rfl
  have hobs4ct : ∀ i, obsAt s4 ct i =
      ((getCell s ct).observers ++ (getCell s cs).observers)[i]? := by
    intro i
    simp only [obsAt, hc4ct]
  have hobs4_hi : ∀ i, ¬ i < (getCell s ct).observers.length →
      obsAt s4 ct i = obsAt s cs (i - (getCell s ct).observers.length) := by
    intro i hi
    rw [hobs4ct i, List.getElem?_append_right (by omega)]
    rfl
  have hts4 : cellIdThrough s4 targetId (tkOpt.getD key) = some ct := by
    have hT4 : getSlot s4 targetId (tkOpt.getD key) = some (Slot.desc { dT with
        observerIndexes := dT.observerIndexes ++ [(getCell s ct).observers.length] }) := by
      rw [hsl4]
      exact hT3
    simp [cellIdThrough, hT4, hTso]
  have hsrcSlot : ∀ (j : Nat) (e : Entry), obsAt s cs j = some (some e) →
      ∃ d2, getSlot s e.obj e.key = some (Slot.desc d2) ∧ d2.myIndex = j ∧
        d2.sharedObject = some cs ∧
        getSlot s4 e.obj e.key = some (Slot.desc (shiftDesc
          (getCell s ct).observers.length d2)) := by
    intro j e ho
    have hj := hspan j e ho
    obtain ⟨e2, d2, ho2, hsl2, hmi2, hso2⟩ := ptMatch_elim s cs _ hm j hj
    rw [ho] at ho2
    have he2 : e2 = e := by simpa using ho2.symm
    rw [he2] at hsl2
    refine ⟨d2, hsl2, hmi2, hso2, ?_⟩
    rw [hsl4]
    refine hshift3 j hj e d2 (by rw [hobs2]; exact ho) ?_
    rw [← hs2, getSlot_setSlot_ne _ _ _ _ _ _ (ne_pair_of_entry_ne (hnotT j hj e ho))]
    exact hsl2
  have hdesc4 : ∀ i e, 0 ≤ i → ¬ i < (getCell s ct).observers.length →
      obsAt s4 ct i = some (some e) →
      (∃ d2, getSlot s4 e.obj e.key = some (Slot.desc d2)) ∧
        e ≠ (⟨targetId, tkOpt.getD key⟩ : Entry) := by
    intro i e _ hi ho
    rw [hobs4_hi i hi] at ho
    obtain ⟨d2, _, _, _, hs4e⟩ := hsrcSlot _ e ho
    exact ⟨⟨_, hs4e⟩, hnotT _ (hspan _ e ho) e ho⟩
  have hdist4 : ∀ i j e, 0 ≤ i → 0 ≤ j → ¬ i < (getCell s ct).observers.length →
      ¬ j < (getCell s ct).observers.length → i ≠ j →
      obsAt s4 ct i = some (some e) → obsAt s4 ct j ≠ some (some e) := by
    intro i j e _ _ hi hj hij hoi hoj
    rw [hobs4_hi i hi] at hoi
    rw [hobs4_hi j hj] at hoj
    obtain ⟨di, hsli, hmii, _, _⟩ := hsrcSlot _ e hoi
    obtain ⟨dj, hslj, hmij, _, _⟩ := hsrcSlot _ e hoj
    rw [hsli] at hslj
    have hdd : di = dj := by simpa using hslj
    have hmm : i - (getCell s ct).observers.length = j - (getCell s ct).observers.length := by
      rw [← hmii, hdd]
      exact hmij
    omega
  obtain ⟨s5, notifs, hrun5, hc5, hl5, hcb5, hshift5, hframe5⟩ :=
    bindLoop_ok ((getCell s4 ct).observers.length) s4 targetId (tkOpt.getD key)
      ((getCell s ct).observers.length) ((getCell s4 cs).value) noNotify [] ct 0
      hts4 (by omega) hdesc4 hdist4
  have hcell5 : getCell s5 ct = { getCell s ct with
      observers := (getCell s ct).observers ++ (getCell s cs).observers } := by
    rw [getCell_eq_of_cells hc5 ct, hc4ct]
  have hT5 : getSlot s5 targetId (tkOpt.getD key) = some (Slot.desc { dT with
      observerIndexes := dT.observerIndexes ++ [(getCell s ct).observers.length] }) := by
    rw [hframe5 targetId (tkOpt.getD key) (fun i e hi hn ho => (hdesc4 i e hi hn ho).2), hsl4]
    exact hT3
  have hshiftS : ∀ j ∈ liveIdxPT (PT.node 0 csT), ∀ e d2, obsAt s cs j = some (some e) →
      getSlot s e.obj e.key = some (Slot.desc d2) →
      getSlot s5 e.obj e.key = some (Slot.desc
        ⟨d2.myIndex + (getCell s ct).observers.length,
         d2.observerIndexes.map (fun x => x + (getCell s ct).observers.length), some ct⟩) := by
    intro j hj e d2 ho hsl
    obtain ⟨d2', hsl', hmi', hso', hs4e⟩ := hsrcSlot j e ho
    rw [hsl] at hsl'
    have hd : d2 = d2' := by simpa using hsl'
    subst hd
    have hoi : obsAt s4 ct ((getCell s ct).observers.length + j) = some (some e) := by
      rw [hobs4_hi _ (by omega), Nat.add_sub_cancel_left]
      exact ho
    exact hshift5 ((getCell s ct).observers.length + j) e
      (shiftDesc (getCell s ct).observers.length d2) (by omega) (by omega) hoi hs4e
  have hfrS : ∀ o k, ¬ (o = targetId ∧ k = tkOpt.getD key) →
      (∀ j ∈ liveIdxPT (PT.node 0 csT), entryAt s cs j ≠ some ⟨o, k⟩) →
      getSlot s5 o k = getSlot s o k := by
    intro o k hok hno
    have hnol : ∀ i e, 0 ≤ i → ¬ i < (getCell s ct).observers.length →
        obsAt s4 ct i = some (some e) → e ≠ (⟨o, k⟩ : Entry) := by
      intro i e _ hi ho he
      rw [hobs4_hi i hi] at ho
      have hj := hspan _ e ho
      subst he
      exact hno _ hj (entryAt_of_obsAt ho)
    have hnotouch : (⟨o, k⟩ : Entry) ∉ liveEntries s2 cs (liveIdxPT (PT.node 0 csT)) := by
      apply not_mem_liveEntries
      intro j hj he
      rw [entryAt_eq_of_cells hc2cells] at he
      exact hno j hj he
    rw [hframe5 o k hnol, hsl4, hfr3 o k hnotouch, ← hs2,
      getSlot_setSlot_ne _ _ _ _ _ _ hok]
  have hobs5 : ∀ i, obsAt s5 ct i =
      ((getCell s ct).observers ++ (getCell s cs).observers)[i]? := by
    intro i
    simp only [obsAt, hcell5]
  have hidx : ∀ i e, obsAt s5 ct i = some (some e) → ∃ d2,
      getSlot s5 e.obj e.key = some (Slot.desc d2) ∧ d2.myIndex = i ∧
      d2.sharedObject = some ct := by
    intro i e ho5
    rw [hobs5] at ho5
    by_cases hi : i < (getCell s ct).observers.length
    · rw [List.getElem?_append_left hi] at ho5
      have hoT : obsAt s ct i = some (some e) := ho5
      obtain ⟨d2, hsl2, hmi2, hso2⟩ := htOk i e hoT
      by_cases het : e = (⟨targetId, tkOpt.getD key⟩ : Entry)
      · have hob : e.obj = targetId := by rw [het]
        have hk : e.key = tkOpt.getD key := by rw [het]
        rw [hob, hk, hT] at hsl2
        have hd : dT = d2 := by simpa using hsl2
        refine ⟨{ dT with observerIndexes := dT.observerIndexes ++
            [(getCell s ct).observers.length] }, ?_, ?_, ?_⟩
        · rw [hob, hk]
          exact hT5
        · show dT.myIndex = i
          rw [hd]
          exact hmi2
        · show dT.sharedObject = some ct
          exact hTso
      · have hnsrc : ∀ j ∈ liveIdxPT (PT.node 0 csT), entryAt s cs j ≠ some ⟨e.obj, e.key⟩ := by
          intro j hj hje
          have ho2 := obsAt_of_entryAt hje
          obtain ⟨e3, d3, ho3, hsl3, hmi3, hso3⟩ := ptMatch_elim s cs _ hm j hj
          rw [ho2] at ho3
          have he3 : e3 = (⟨e.obj, e.key⟩ : Entry) := by simpa using ho3.symm
          rw [he3] at hsl3
          have hsl3b : getSlot s e.obj e.key = some (Slot.desc d3) := hsl3
          rw [hsl2] at hsl3b
          have hd3 : d2 = d3 := by simpa using hsl3b
          rw [← hd3] at hso3
          rw [hso2] at hso3
          exact hcsct (Option.some.inj hso3).symm
        rw [hfrS e.obj e.key (ne_pair_of_entry_ne het) hnsrc]
        exact ⟨d2, hsl2, hmi2, hso2⟩
    · rw [List.getElem?_append_right (by omega)] at ho5
      have hoS : obsAt s cs (i - (getCell s ct).observers.length) = some (some e) := ho5
      have hjlive := hspan _ e hoS
      obtain ⟨e3, d3, ho3, hsl3, hmi3, hso3⟩ := ptMatch_elim s cs _ hm _ hjlive
      rw [hoS] at ho3
      have he3 : e3 = e := by simpa using ho3.symm
      rw [he3] at hsl3
      refine ⟨_, hshiftS _ hjlive e d3 hoS hsl3, ?_, rfl⟩
      show d3.myIndex + (getCell s ct).observers.length = i
      rw [hmi3]
      omega
  refine ⟨s5, notifs, ?_, ?_, ?_, hT5, hshiftS, hfrS, hidx, ?_, ?_, ?_⟩
  · rw [hstep, hstep2, hstep3]
    exact hrun5
  · rw [hcell5]
  · rw [hcell5]
  · intro c2 hc2ne
    rw [getCell_eq_of_cells hc5 c2, ← hs4, getCell_setCell_ne _ _ _ _ hc2ne, hcell3 c2]
  · rw [hl5, ← hs4]
    show s3.objs.length = s.objs.length
    rw [hl3, ← hs2, objs_length_setSlot]
  · intro o
    rw [hcb5 o, ← hs4]
    show (getObj s3 o).callbacks = (getObj s o).callbacks
    rw [hcb3 o, ← hs2, callbacks_setSlot]

/-- C2: merging a bound source group (root `selfId.key` on cell `cs`) into
a bound target (cell `ct`) whose table satisfies the index invariant
succeeds and yields one table of length `n + m` with the target's entries
first; every live entry at position `i` of the merged table owns a
descriptor with `__myIndex = i`; and the index update added `n` (the prior
target table length) to the `__myIndex` and to every `__observerIndexes`
element of the source attribute and, recursively, of every live downstream
member. -/
theorem claim_C2_merge_indexes (fuel : Nat) (s : State) (selfId : Nat) (key : String)
    (targetId : Nat) (tkOpt : Option String) (noNotify : Bool) (dT dS : Desc) (ct cs : Nat)
    (csT : PL)
    (hT : getSlot s targetId (tkOpt.getD key) = some (Slot.desc dT))
    (hTso : dT.sharedObject = some ct)
    (hS : getSlot s selfId key = some (Slot.desc dS))
    (hS0 : dS.myIndex = 0)
    (hSso : dS.sharedObject = some cs)
    (hcsct : cs ≠ ct)
    (hctlt : ct < s.cells.length)
    (hm : ptMatch s cs (PT.node 0 csT) = true)
    (hroot : obsAt s cs 0 = some (some ⟨selfId, key⟩))
    (hnd : (allIdxPT (PT.node 0 csT)).Nodup)
    (hspanB : ∀ j, j < (getCell s cs).observers.length →
      obsAt s cs j = some none ∨ j ∈ liveIdxPT (PT.node 0 csT))
    (htOkB : tableOk s ct = true)
    (hfuel : wtPT (PT.node 0 csT) ≤ fuel) :
    ∃ s5 notifs,
      bindTo fuel s selfId key targetId tkOpt noNotify = ⟨s5, notifs, none⟩ ∧
      (getCell s5 ct).observers = (getCell s ct).observers ++ (getCell s cs).observers ∧
      (getCell s5 ct).observers.length =
        (getCell s ct).observers.length + (getCell s cs).observers.length ∧
      (∀ i e, obsAt s5 ct i = some (some e) → ∃ d2,
        getSlot s5 e.obj e.key = some (Slot.desc d2) ∧ d2.myIndex = i) ∧
      (∀ j ∈ liveIdxPT (PT.node 0 csT), ∀ e d2, obsAt s cs j = some (some e) →
        getSlot s e.obj e.key = some (Slot.desc d2) →
        getSlot s5 e.obj e.key = some (Slot.desc
          ⟨d2.myIndex + (getCell s ct).observers.length,
           d2.observerIndexes.map (fun x => x + (getCell s ct).observers.length),
           some ct⟩)) := by
  obtain ⟨s5, notifs, hrun, hobs, hval, hTs, hshift, hframe, hidx, hcells, hlen, hcb⟩ :=
    bindMergeCore fuel s selfId key targetId tkOpt noNotify dT dS ct cs csT
      hT hTso hS hS0 hSso hcsct hctlt hm hroot hnd hspanB htOkB hfuel
  refine ⟨s5, notifs, hrun, hobs, ?_, ?_, hshift⟩
  · rw [hobs, List.length_append]
  · intro i e ho5
    obtain ⟨d2, h1, h2, _⟩ := hidx i e ho5
    exact ⟨d2, h1, h2⟩

/-- Witness for C2 at a concrete input: the spec's merge scenario, X's
group (X at 2, Y at 3, cell 1) bound into P's group (P at 0, Q at 1,
cell 0). -/
theorem claim_C2_witness :
    getSlot stMerge 0 "k" = some (Slot.desc ⟨0, [1], some 0⟩) ∧
    getSlot stMerge 2 "k" = some (Slot.desc ⟨0, [1], some 1⟩) ∧
    (1 : Nat) ≠ 0 ∧
    (0 : Nat) < stMerge.cells.length ∧
    ptMatch stMerge 1 (PT.node 0 (PL.cons (PT.node 1 PL.nil) PL.nil)) = true ∧
    obsAt stMerge 1 0 = some (some ⟨2, "k"⟩) ∧
    (allIdxPT (PT.node 0 (PL.cons (PT.node 1 PL.nil) PL.nil))).Nodup ∧
    (∀ j, j < (getCell stMerge 1).observers.length →
      obsAt stMerge 1 j = some none ∨
        j ∈ liveIdxPT (PT.node 0 (PL.cons (PT.node 1 PL.nil) PL.nil))) ∧
    tableOk stMerge 0 = true ∧
    wtPT (PT.node 0 (PL.cons (PT.node 1 PL.nil) PL.nil)) ≤ 10 ∧
    (∃ s5 notifs,
      bindTo 10 stMerge 2 "k" 0 none false = ⟨s5, notifs, none⟩ ∧
      (getCell s5 0).observers =
        (getCell stMerge 0).observers ++ (getCell stMerge 1).observers ∧
      (getCell s5 0).observers.length =
        (getCell stMerge 0).observers.length + (getCell stMerge 1).observers.length ∧
      (∀ i e, obsAt s5 0 i = some (some e) → ∃ d2,
        getSlot s5 e.obj e.key = some (Slot.desc d2) ∧ d2.myIndex = i) ∧
      (∀ j ∈ liveIdxPT (PT.node 0 (PL.cons (PT.node 1 PL.nil) PL.nil)), ∀ e d2,
        obsAt stMerge 1 j = some (some e) →
        getSlot stMerge e.obj e.key = some (Slot.desc d2) →
        getSlot s5 e.obj e.key = some (Slot.desc
          ⟨d2.myIndex + (getCell stMerge 0).observers.length,
           d2.observerIndexes.map (fun x => x + (getCell stMerge 0).observers.length),
           some 0⟩))) :=
  ⟨by decide, by decide, by decide, by decide, by decide, by decide, by decide,
   by decide, by decide, by decide,
   claim_C2_merge_indexes 10 stMerge 2 "k" 0 none false ⟨0, [1], some 0⟩ ⟨0, [1], some 1⟩
     0 1 (PL.cons (PT.node 1 PL.nil) PL.nil) (by decide) (by decide) (by decide) (by decide)
     (by decide) (by decide) (by decide) (by decide) (by decide) (by decide) (by decide)
     (by decide) (by decide)⟩

/-- C3: after the same successful merge, every live entry of the resulting
cell's table holds a descriptor on its owner's slot whose cell is that
same single cell `ct`; and provided every descriptor referencing the
source cell `cs` was a live member of the source tree (the canonical-cell
invariant of the pre-state), no descriptor anywhere references the
abandoned cell `cs` any more. -/
theorem claim_C3_canonical_cell (fuel : Nat) (s : State) (selfId : Nat) (key : String)
    (targetId : Nat) (tkOpt : Option String) (noNotify : Bool) (dT dS : Desc) (ct cs : Nat)
    (csT : PL)
    (hT : getSlot s targetId (tkOpt.getD key) = some (Slot.desc dT))
    (hTso : dT.sharedObject = some ct)
    (hS : getSlot s selfId key = some (Slot.desc dS))
    (hS0 : dS.myIndex = 0)
    (hSso : dS.sharedObject = some cs)
    (hcsct : cs ≠ ct)
    (hctlt : ct < s.cells.length)
    (hm : ptMatch s cs (PT.node 0 csT) = true)
    (hroot : obsAt s cs 0 = some (some ⟨selfId, key⟩))
    (hnd : (allIdxPT (PT.node 0 csT)).Nodup)
    (hspanB : ∀ j, j < (getCell s cs).observers.length →
      obsAt s cs j = some none ∨ j ∈ liveIdxPT (PT.node 0 csT))
    (htOkB : tableOk s ct = true)
    (hfuel : wtPT (PT.node 0 csT) ≤ fuel)
    (hglob : ∀ e ∈ descRefs s cs, ∃ j ∈ liveIdxPT (PT.node 0 csT),
      entryAt s cs j = some e) :
    ∃ s5 notifs,
      bindTo fuel s selfId key targetId tkOpt noNotify = ⟨s5, notifs, none⟩ ∧
      (∀ i e, obsAt s5 ct i = some (some e) → ∃ d2,
        getSlot s5 e.obj e.key = some (Slot.desc d2) ∧ d2.sharedObject = some ct) ∧
      (∀ o k d2, getSlot s5 o k = some (Slot.desc d2) → d2.sharedObject ≠ some cs) := by
  obtain ⟨s5, notifs, hrun, hobs, hval, hTs, hshift, hframe, hidx, hcells, hlen, hcb⟩ :=
    bindMergeCore fuel s selfId key targetId tkOpt noNotify dT dS ct cs csT
      hT hTso hS hS0 hSso hcsct hctlt hm hroot hnd hspanB htOkB hfuel
  refine ⟨s5, notifs, hrun, ?_, ?_⟩
  · intro i e ho5
    obtain ⟨d2, h1, _, h3⟩ := hidx i e ho5
    exact ⟨d2, h1, h3⟩
  · intro o k d2 hsl5 hso5
    by_cases hot : o = targetId ∧ k = tkOpt.getD key
    · obtain ⟨h1, h2⟩ := hot
      subst h1
      subst h2
      rw [hTs] at hsl5
      have hd : ({ dT with observerIndexes := dT.observerIndexes ++
          [(getCell s ct).observers.length] } : Desc) = d2 := by simpa using hsl5
      rw [← hd] at hso5
      have hcc : some ct = some cs := by
        rw [← hTso]
        exact hso5
      exact hcsct (Option.some.inj hcc).symm
    · by_cases hsrc : ∃ j ∈ liveIdxPT (PT.node 0 csT), entryAt s cs j = some ⟨o, k⟩
      · obtain ⟨j, hj, hje⟩ := hsrc
        have ho2 := obsAt_of_entryAt hje
        obtain ⟨e3, d3, ho3, hsl3, hmi3, hso3⟩ := ptMatch_elim s cs _ hm j hj
        rw [ho2] at ho3
        have he3 : e3 = (⟨o, k⟩ : Entry) := by simpa using ho3.symm
        rw [he3] at hsl3
        have hsl3b : getSlot s o k = some (Slot.desc d3) := hsl3
        have hres : getSlot s5 o k = some (Slot.desc
            ⟨d3.myIndex + (getCell s ct).observers.length,
             d3.observerIndexes.map (fun x => x + (getCell s ct).observers.length),
             some ct⟩) := hshift j hj ⟨o, k⟩ d3 ho2 hsl3b
        rw [hres] at hsl5
        have hd : (⟨d3.myIndex + (getCell s ct).observers.length,
            d3.observerIndexes.map (fun x => x + (getCell s ct).observers.length),
            some ct⟩ : Desc) = d2 := by simpa using hsl5
        rw [← hd] at hso5
        have hcc : some ct = some cs := hso5
        exact hcsct (Option.some.inj hcc).symm
      · push_neg at hsrc
        rw [hframe o k hot hsrc] at hsl5
        obtain ⟨j, hj, hje⟩ := hglob ⟨o, k⟩ (mem_descRefs hsl5 hso5)
        exact hsrc j hj hje

/-- Witness for C3 at the same concrete merge scenario. -/
theorem claim_C3_witness :
    getSlot stMerge 0 "k" = some (Slot.desc ⟨0, [1], some 0⟩) ∧
    getSlot stMerge 2 "k" = some (Slot.desc ⟨0, [1], some 1⟩) ∧
    (1 : Nat) ≠ 0 ∧
    (0 : Nat) < stMerge.cells.length ∧
    ptMatch stMerge 1 (PT.node 0 (PL.cons (PT.node 1 PL.nil) PL.nil)) = true ∧
    obsAt stMerge 1 0 = some (some ⟨2, "k"⟩) ∧
    (allIdxPT (PT.node 0 (PL.cons (PT.node 1 PL.nil) PL.nil))).Nodup ∧
    (∀ j, j < (getCell stMerge 1).observers.length →
      obsAt stMerge 1 j = some none ∨
        j ∈ liveIdxPT (PT.node 0 (PL.cons (PT.node 1 PL.nil) PL.nil))) ∧
    tableOk stMerge 0 = true ∧
    wtPT (PT.node 0 (PL.cons (PT.node 1 PL.nil) PL.nil)) ≤ 10 ∧
    (∀ e ∈ descRefs stMerge 1, ∃ j ∈ liveIdxPT (PT.node 0 (PL.cons (PT.node 1 PL.nil) PL.nil)),
      entryAt stMerge 1 j = some e) ∧
    (∃ s5 notifs,
      bindTo 10 stMerge 2 "k" 0 none false = ⟨s5, notifs, none⟩ ∧
      (∀ i e, obsAt s5 0 i = some (some e) → ∃ d2,
        getSlot s5 e.obj e.key = some (Slot.desc d2) ∧ d2.sharedObject = some 0) ∧
      (∀ o k d2, getSlot s5 o k = some (Slot.desc d2) → d2.sharedObject ≠ some 1)) :=
  ⟨by decide, by decide, by decide, by decide, by decide, by decide, by decide,
   by decide, by decide, by decide, by decide,
   claim_C3_canonical_cell 10 stMerge 2 "k" 0 none false ⟨0, [1], some 0⟩ ⟨0, [1], some 1⟩
     0 1 (PL.cons (PT.node 1 PL.nil) PL.nil) (by decide) (by decide) (by decide) (by decide)
     (by decide) (by decide) (by decide) (by decide) (by decide) (by decide) (by decide)
     (by decide) (by decide) (by decide)⟩

end KVO
